import Mathlib

/-!
Verification development for the laia conversational agent runtime (Go).

The Go source is shallowly embedded: pure functions become Lean functions,
stateful code becomes explicit state passing, the external boundaries
(OpenAI HTTP endpoint, tool business logic, the JSON parser of the Go
standard library, wall-clock time) become oracle parameters.  Machine
integers are modelled as `Nat`/`Int` (no arithmetic in the embedded code
overflows), Go byte lengths (`len` on strings) as UTF-8 byte counts.
-/

namespace Laia

/-! ## Basic string utilities shared by the embedding -/

/-- Left brace character (written via its code point). -/
def lbrace : Char := Char.ofNat 123

/-- Right brace character (written via its code point). -/
def rbrace : Char := Char.ofNat 125

/-- Models Go `len(s)` on a string: the UTF-8 byte count. -/
def strBytes (s : String) : Nat := s.utf8ByteSize

/-- UTF-8 byte count of a character list. -/
def charsBytes (cs : List Char) : Nat := cs.foldl (fun n c => n + c.utf8Size) 0

/-- Models Go `strings.ToLower` (restricted to ASCII case folding; the
markers used by the classifier only require ASCII folding). -/
def toLowerStr (s : String) : String := String.mk (s.data.map Char.toLower)

/-- Substring test on character lists; models Go `strings.Contains`. -/
def hasSubstr : List Char → List Char → Bool
  | [], needle => needle.isEmpty
  | c :: t, needle => needle.isPrefixOf (c :: t) || hasSubstr t needle

/-- Models `containsAny` from internal/ai/errors.go: lower-cases both the
subject and every pattern and checks substring containment. -/
def containsAny (s : String) (patterns : List String) : Bool :=
  patterns.any fun p => hasSubstr (toLowerStr s).data (toLowerStr p).data

/-! ## Error classifier (internal/ai/errors.go) -/

/-- ErrorType from internal/ai/errors.go. -/
inductive ErrorType where
  | auth
  | notFound
  | rateLimit
  | server
  | validation
  | session
  | timeout
deriving DecidableEq, Repr

/-- String value of each ErrorType constant. -/
def ErrorType.str : ErrorType → String
  | .auth => "auth_error"
  | .notFound => "not_found"
  | .rateLimit => "rate_limit"
  | .server => "server_error"
  | .validation => "validation"
  | .session => "session_error"
  | .timeout => "timeout"

/-- ToolError from internal/ai/errors.go. -/
structure ToolError where
  type : ErrorType
  message : String
  rawError : String
  retryable : Bool
deriving DecidableEq, Repr

/-- Markers of the timeout group. -/
def timeoutMarkers : List String := ["context deadline exceeded", "timeout"]

/-- Markers of the auth group (the third entry is the literal substring the
source passes to its substring matcher). -/
def authMarkers : List String :=
  ["401", "unauthorized", "invalid.*token", "ERROR_SESSION_TOKEN_INVALID"]

/-- Markers of the not-found group. -/
def notFoundMarkers : List String := ["404", "not found", "item not found"]

/-- Markers of the rate-limit group. -/
def rateLimitMarkers : List String := ["429", "rate limit", "too many requests"]

/-- Markers of the server-error group. -/
def serverMarkers : List String :=
  ["500", "502", "503", "504", "server error", "internal error"]

/-- Markers of the session group. -/
def sessionMarkers : List String := ["session", "sessão", "initSession"]

/-- Markers of the validation group. -/
def validationMarkers : List String := ["argumento", "obrigatório", "inválido", "deve ser"]

/-- ClassifyError from internal/ai/errors.go: inspects the error string and
returns a typed ToolError, first matching marker group wins. -/
def ClassifyError (raw : String) : ToolError :=
  if containsAny raw timeoutMarkers then
    ⟨.timeout, "O Nexus demorou para responder. Tentando novamente...", raw, true⟩
  else if containsAny raw authMarkers then
    ⟨.auth, "Sua sessão expirou. Reconectando...", raw, false⟩
  else if containsAny raw notFoundMarkers then
    ⟨.notFound, "Recurso não encontrado no Nexus. Verifique o ID informado.", raw, false⟩
  else if containsAny raw rateLimitMarkers then
    ⟨.rateLimit, "Servidor ocupado, tentando novamente...", raw, true⟩
  else if containsAny raw serverMarkers then
    ⟨.server, "O Nexus está temporariamente indisponível. Tente novamente em alguns minutos.", raw, true⟩
  else if containsAny raw sessionMarkers then
    ⟨.session, "Erro na sessão do Nexus. Pode ser necessário vincular novamente.", raw, false⟩
  else if containsAny raw validationMarkers then
    ⟨.validation, raw, raw, false⟩
  else
    ⟨.server, "Erro inesperado ao acessar o Nexus.", raw, false⟩

/-! ## Go dynamic values (`any` as produced by encoding/json and the tools)

`vArr` models a Go `[]any`, `vRecList` a Go `[]map[string]any` (a distinct
runtime type in Go, which is what the type assertion in `truncateOutput`
tests for), `vObj` a Go `map[string]any`.  Numbers are modelled as integers
(the embedded code never inspects numeric values beyond their type tag). -/

mutual
inductive GoVal where
  | vNull
  | vBool (b : Bool)
  | vNum (n : Int)
  | vStr (s : String)
  | vArr (xs : GoValList)
  | vRecList (xs : GoRecList)
  | vObj (fs : GoFields)

inductive GoValList where
  | nil
  | cons (v : GoVal) (t : GoValList)

inductive GoFields where
  | nil
  | cons (k : String) (v : GoVal) (t : GoFields)

inductive GoRecList where
  | nil
  | cons (r : GoFields) (t : GoRecList)
end

/-- Association-list model of a Go `map[string]any`.  Go map iteration order
is unspecified; the model fixes insertion order for iteration, and JSON
serialization below sorts keys the way `encoding/json` does. -/
def RMap := List (String × GoVal)

/-- Converts the list form of a record to the nested `GoFields` form. -/
def RMap.toFields : RMap → GoFields
  | [] => .nil
  | (k, v) :: t => .cons k v (RMap.toFields t)

/-- Converts the nested `GoFields` form back to the list form. -/
def GoFields.toList : GoFields → RMap
  | .nil => []
  | .cons k v t => (k, v) :: t.toList

/-- Converts a `GoValList` to an ordinary list. -/
def GoValList.toList : GoValList → List GoVal
  | .nil => []
  | .cons v t => v :: t.toList

/-- Converts a list of values to a `GoValList`. -/
def GoValList.ofList : List GoVal → GoValList
  | [] => .nil
  | v :: t => .cons v (GoValList.ofList t)

/-- Converts a `GoRecList` to a list of records in list form. -/
def GoRecList.toList : GoRecList → List RMap
  | .nil => []
  | .cons r t => r.toList :: t.toList

/-- Converts a list of records to a `GoRecList`. -/
def GoRecList.ofList : List RMap → GoRecList
  | [] => .nil
  | r :: t => .cons (RMap.toFields r) (GoRecList.ofList t)

/-- Map lookup: `v, ok := m[k]`. -/
def RMap.lookup (m : RMap) (k : String) : Option GoVal :=
  match m with
  | [] => none
  | (k', v) :: t => if k' == k then some v else RMap.lookup t k

/-- Key-presence test. -/
def RMap.hasKey (m : RMap) (k : String) : Bool :=
  (m.lookup k).isSome

/-- Map assignment `m[k] = v`: replaces the value in place when the key is
present, otherwise appends the new binding. -/
def RMap.set (m : RMap) (k : String) (v : GoVal) : RMap :=
  match m with
  | [] => [(k, v)]
  | (k', v') :: t => if k' == k then (k', v) :: t else (k', v') :: RMap.set t k v

/-! ## JSON serialization (models encoding/json.Marshal on these values)

Two boundary simplifications, both at the Go standard-library boundary (not
repository code): string escaping is not modelled (no string handled by the
embedded code requires escaping), and map entries are serialized in the
model's insertion order rather than encoding/json's sorted key order — a key
permutation that leaves every serialized *length* unchanged, and lengths are
all the embedded code ever inspects about serialized output. -/

/-- Serialized form of a JSON string literal (escaping not modelled). -/
def serStrLit (s : String) : List Char := '"' :: s.data ++ ['"']

mutual
/-- Serialization of one dynamic value, as `encoding/json.Marshal` renders it. -/
def GoVal.ser : GoVal → List Char
  | .vNull => "null".data
  | .vBool b => (if b then "true" else "false").data
  | .vNum n => (toString n).data
  | .vStr s => serStrLit s
  | .vArr xs => '[' :: serList xs ++ [']']
  | .vRecList xs => '[' :: serRecs xs ++ [']']
  | .vObj fs => lbrace :: serFields fs ++ [rbrace]

/-- Serialization of the elements of a `[]any`. -/
def serList : GoValList → List Char
  | .nil => []
  | .cons v .nil => v.ser
  | .cons v (.cons w t) => v.ser ++ ',' :: serList (.cons w t)

/-- Serialization of the elements of a `[]map[string]any`. -/
def serRecs : GoRecList → List Char
  | .nil => []
  | .cons r .nil => lbrace :: serFields r ++ [rbrace]
  | .cons r (.cons s t) => (lbrace :: serFields r ++ [rbrace]) ++ ',' :: serRecs (.cons s t)

/-- Serialization of object entries. -/
def serFields : GoFields → List Char
  | .nil => []
  | .cons k v .nil => serStrLit k ++ ':' :: v.ser
  | .cons k v (.cons k2 v2 t) => serStrLit k ++ ':' :: v.ser ++ ',' :: serFields (.cons k2 v2 t)
end

/-- Serialization of a whole result map (a Go `map[string]any`). -/
def serRMap (m : RMap) : List Char :=
  lbrace :: serFields (RMap.toFields m) ++ [rbrace]

/-- Byte length of the serialized result: models `len(json.Marshal(m))`. -/
def serRMapBytes (m : RMap) : Nat := charsBytes (serRMap m)

/-! ## fmt "%v" rendering (used by a few Sprintf calls in the source) -/

mutual
/-- Rendering of a dynamic value by fmt's default verb (map entries are
rendered in the model's insertion order; fmt sorts map keys, another
length-preserving boundary simplification). -/
def goFmtV : GoVal → String
  | .vNull => "<nil>"
  | .vBool b => if b then "true" else "false"
  | .vNum n => toString n
  | .vStr s => s
  | .vArr xs => "[" ++ goFmtVList xs ++ "]"
  | .vRecList xs => "[" ++ goFmtVRecs xs ++ "]"
  | .vObj fs => "map[" ++ goFmtVFields fs ++ "]"

/-- Space-separated rendering of slice elements. -/
def goFmtVList : GoValList → String
  | .nil => ""
  | .cons v .nil => goFmtV v
  | .cons v (.cons w t) => goFmtV v ++ " " ++ goFmtVList (.cons w t)

/-- Space-separated rendering of record-slice elements. -/
def goFmtVRecs : GoRecList → String
  | .nil => ""
  | .cons r .nil => "map[" ++ goFmtVFields r ++ "]"
  | .cons r (.cons s t) => "map[" ++ goFmtVFields r ++ "]" ++ " " ++ goFmtVRecs (.cons s t)

/-- Space-separated `k:v` entries of a map rendering. -/
def goFmtVFields : GoFields → String
  | .nil => ""
  | .cons k v .nil => k ++ ":" ++ goFmtV v
  | .cons k v (.cons k2 v2 t) => k ++ ":" ++ goFmtV v ++ " " ++ goFmtVFields (.cons k2 v2 t)
end

/-! ## Tool contract and execution wrapper (internal/ai/tools.go)

Constants from the source: `maxOutputLen = 8192`, `maxListItems = 10`.  The
per-tool timeout (`toolTimeout = 30s`) is real time and lives behind the
tool-execution oracle: a timed-out call surfaces as an error string from the
oracle. -/

/-- Maximum JSON output length before truncation (~8KB). -/
def maxOutputLen : Nat := 8192

/-- Maximum items in a list before truncation. -/
def maxListItems : Nat := 10

/-- ParamSchema from internal/ai/tools.go (recursive JSON-Schema-like type). -/
inductive ParamSchema where
  | mk (type : String) (description : String)
       (properties : List (String × ParamSchema)) (required : List String)
       (enum : List String) (items : Option ParamSchema)

/-- Accessor for the schema's declared type. -/
def ParamSchema.type : ParamSchema → String
  | .mk t _ _ _ _ _ => t

/-- Accessor for the schema's properties. -/
def ParamSchema.properties : ParamSchema → List (String × ParamSchema)
  | .mk _ _ p _ _ _ => p

/-- Accessor for the schema's required-parameter list. -/
def ParamSchema.required : ParamSchema → List String
  | .mk _ _ _ r _ _ => r

/-- Accessor for the schema's enum. -/
def ParamSchema.enum : ParamSchema → List String
  | .mk _ _ _ _ e _ => e

/-- Lookup of a property schema by name. -/
def lookupProp : List (String × ParamSchema) → String → Option ParamSchema
  | [], _ => none
  | (k, p) :: t, name => if k == name then some p else lookupProp t name

/-- Checks the required parameters of one schema against an argument map;
returns the first failure message, mirroring `validateArgs` (which returns on
the first failing required parameter).  The helper recurses over the
`Required` list. -/
def validateReq (props : List (String × ParamSchema)) (args : RMap) :
    List String → Option String
  | [] => none
  | req :: rest =>
    match args.lookup req with
    | none => some ("parâmetro obrigatório ausente: " ++ req)
    | some .vNull => some ("parâmetro obrigatório ausente: " ++ req)
    | some v =>
      match lookupProp props req with
      | none => validateReq props args rest
      | some prop =>
        if prop.type == "string" then
          match v with
          | .vStr s =>
            if s == "" then some ("parâmetro " ++ req ++ " não pode ser vazio")
            else if prop.enum.length > 0 && !prop.enum.contains s then
              some ("parâmetro " ++ req ++ " deve ser um de: [" ++
                String.intercalate " " prop.enum ++ "]")
            else validateReq props args rest
          | _ => some ("parâmetro " ++ req ++ " deve ser string")
        else if prop.type == "integer" || prop.type == "number" then
          match v with
          | .vNum _ => validateReq props args rest
          | _ => some ("parâmetro " ++ req ++ " deve ser numérico")
        else validateReq props args rest

/-- validateArgs from internal/ai/tools.go: `none` means the arguments are
accepted (a `nil` Go map corresponds to `[]`).  `GoVal.vNum` covers both Go
runtime types accepted by the numeric check (`float64`, `int`). -/
def validateArgs (schema : ParamSchema) (args : RMap) : Option String :=
  validateReq schema.properties args schema.required

/-- First map entry holding a `[]map[string]any` longer than `maxListItems`,
in the model's fixed iteration order (Go map iteration order is
unspecified). -/
def findBigList : RMap → Option (String × List RMap)
  | [] => none
  | (k, .vRecList xs) :: t =>
    if xs.toList.length > maxListItems then some (k, xs.toList) else findBigList t
  | _ :: t => findBigList t

/-- Copy of a list item without its verbose sub-fields, as the first pass of
`truncateOutput` builds it (the copy loop skipping the three keys). -/
def stripVerboseItem : RMap → RMap
  | [] => []
  | (k, v) :: t =>
    if k == "descricao" || k == "conteudo" || k == "preview" then stripVerboseItem t
    else (k, v) :: stripVerboseItem t

/-- Byte-bounded clip of a character list: models `data[:n]` on the UTF-8
bytes (identical whenever the byte boundary does not split a code point). -/
def clipBytes (n : Nat) : List Char → List Char
  | [] => []
  | c :: t => if c.utf8Size ≤ n then c :: clipBytes (n - c.utf8Size) t else []

/-- truncateOutput from internal/ai/tools.go: first pass truncates the first
recognized large list field (and returns immediately); the second pass
checks the total serialized size only when no list field was truncated. -/
def truncateOutput (result : RMap) : RMap :=
  match findBigList result with
  | some (key, items) =>
    let truncated := (items.take maxListItems).map stripVerboseItem
    let r1 := result.set key (.vRecList (GoRecList.ofList truncated))
    let r2 := r1.set "_truncated" (.vBool true)
    let r3 := r2.set "_truncated_field" (.vStr key)
    let r4 := r3.set "_original_count" (.vNum (Int.ofNat items.length))
    r4.set "_nota" (.vStr ("Mostrando " ++ toString maxListItems ++ " de " ++
      toString items.length ++ " resultados. Sugira ao usuário refinar a busca."))
  | none =>
    let data := serRMap result
    if charsBytes data ≤ maxOutputLen then result
    else [("_truncated", .vBool true), ("_summary", .vStr (String.mk (clipBytes maxOutputLen data)))]

/-- A registered tool.  `execute` is the oracle for the tool's domain logic
(out of scope of the core); its `Nat` argument is a global invocation index
that threads external-world state, so a retried call may observe a different
outcome than the first one. -/
structure Tool where
  name : String
  description : String
  parameters : Option ParamSchema
  readOnly : Bool
  execute : Nat → RMap → Except String RMap

/-- The tool registry (name-keyed; modelled as the registration list). -/
def Registry := List Tool

/-- Registry lookup, `Registry.Get`. -/
def Registry.get (r : Registry) (name : String) : Option Tool :=
  r.find? fun t => t.name == name

/-- Outcome of `Registry.ExecuteTool`: a result map, a returned `*ToolError`
(the validation short-circuit), or a plain error. -/
inductive ExecOutcome where
  | ok (result : RMap)
  | errTool (e : ToolError)
  | errStr (s : String)

/-- Error text of an outcome as the agent sees it through `err.Error()`
(`*ToolError.Error()` returns `RawError`, which the validation path leaves
empty). -/
def ExecOutcome.errText : ExecOutcome → String
  | .ok _ => ""
  | .errTool e => e.rawError
  | .errStr s => s

/-- Whether the outcome is an error (`toolErr != nil`). -/
def ExecOutcome.isErr : ExecOutcome → Bool
  | .ok _ => false
  | _ => true

/-- Runs the underlying `Execute` with the per-call invocation index and
applies output truncation on success. -/
def runExec (t : Tool) (k : Nat) (args : RMap) : ExecOutcome × Bool :=
  match t.execute k args with
  | .ok res => (.ok (truncateOutput res), true)
  | .error e => (.errStr e, true)

/-- Registry.ExecuteTool from internal/ai/tools.go.  The `Bool` component is
instrumentation recording whether the tool's `Execute` was invoked. -/
def Registry.executeTool (r : Registry) (k : Nat) (name : String) (args : RMap) :
    ExecOutcome × Bool :=
  match r.get name with
  | none => (.errStr ("unknown tool: " ++ name), false)
  | some t =>
    match t.parameters with
    | some schema =>
      match validateArgs schema args with
      | some msg =>
        (.errTool ⟨.validation, "argumentos inválidos para " ++ name ++ ": " ++ msg, "", false⟩,
          false)
      | none => runExec t k args
    | none => runExec t k args

/-- Registry.IsReadOnly from internal/ai/tools.go. -/
def Registry.isReadOnly (r : Registry) (name : String) : Bool :=
  match r.get name with
  | none => false
  | some t => t.readOnly

/-! ## Conversation memory store (internal/store, BoltStore)

`SaveHistory` is persisted through bbolt, an opaque durable map; its pure
turn-transformation pipeline is embedded here as `saveHistoryTurns`. -/

/-- FunctionCallPart from the store package. -/
structure FunctionCallPart where
  id : String
  name : String
  args : RMap

/-- FunctionRespPart from the store package. -/
structure FunctionRespPart where
  toolCallID : String
  name : String
  response : RMap

/-- TurnPart from the store package (text, or a function call/response). -/
structure TurnPart where
  text : String
  functionCall : Option FunctionCallPart
  functionResponse : Option FunctionRespPart

/-- ConversationTurn from the store package. -/
structure ConversationTurn where
  role : String
  parts : List TurnPart

/-- Hard cap on persisted turns. -/
def maxConversationTurns : Nat := 50

/-- Token budget for persisted conversation history. -/
def maxHistoryTokens : Nat := 3500

/-- Comma-joins serialized JSON fields. -/
def joinComma : List (List Char) → List Char
  | [] => []
  | [x] => x
  | x :: y :: t => x ++ ',' :: joinComma (y :: t)

/-- One serialized JSON object field. -/
def serField (k : String) (v : List Char) : List Char := serStrLit k ++ ':' :: v

/-- Serialization of a FunctionCallPart per its struct tags
(`id,omitempty`, `name`, `args,omitempty`; struct fields keep declaration
order under encoding/json). -/
def serFunctionCallPart (fc : FunctionCallPart) : List Char :=
  lbrace :: joinComma
    ((if fc.id == "" then [] else [serField "id" (serStrLit fc.id)]) ++
      [serField "name" (serStrLit fc.name)] ++
      (if fc.args.isEmpty then [] else [serField "args" (serRMap fc.args)])) ++ [rbrace]

/-- Serialization of a FunctionRespPart per its struct tags
(`tool_call_id,omitempty`, `name`, `response`). -/
def serFunctionRespPart (fr : FunctionRespPart) : List Char :=
  lbrace :: joinComma
    ((if fr.toolCallID == "" then [] else [serField "tool_call_id" (serStrLit fr.toolCallID)]) ++
      [serField "name" (serStrLit fr.name), serField "response" (serRMap fr.response)]) ++ [rbrace]

/-- The `len/3.5*1.1` token heuristic, modelled exactly over the rationals
(`int(float64(total)/3.5*1.1)` in the source; `total*11/35` is its
floor). -/
def tokenHeuristic (total : Nat) : Nat := total * 11 / 35

/-- Byte contribution of one turn part to the store's token estimate. -/
def partBytes (p : TurnPart) : Nat :=
  strBytes p.text +
    (match p.functionCall with
     | some fc => charsBytes (serFunctionCallPart fc)
     | none => 0) +
    (match p.functionResponse with
     | some fr => charsBytes (serFunctionRespPart fr)
     | none => 0)

/-- Total byte count summed by `estimateTokens`. -/
def turnsBytes (turns : List ConversationTurn) : Nat :=
  (turns.map fun t => (t.parts.map partBytes).sum).sum

/-- estimateTokens from internal/store: the character-length-based heuristic. -/
def estimateTokens (turns : List ConversationTurn) : Nat :=
  tokenHeuristic (turnsBytes turns)

/-- Long-text keys truncated by the store's compression. -/
def longFieldKeys : List String := ["descricao", "conteudo", "preview", "answer", "content"]

/-- List-field keys recognized by the compression passes. -/
def storeListKeys : List String :=
  ["chamados", "ativos", "artigos", "tarefas", "comentarios", "categorias",
    "departamentos", "historico"]

/-- Truncates one long string field of a response to 100 bytes plus the
elision marker. -/
def truncLongField (resp : RMap) (key : String) : RMap :=
  match resp.lookup key with
  | some (.vStr v) =>
    if strBytes v > 100 then
      resp.set key (.vStr (String.mk (clipBytes 100 v.data) ++ "…[truncado]"))
    else resp
  | _ => resp

/-- Keeps only `id`, the first of `nome`/`titulo`, and `status` from a list
item, in that insertion order. -/
def compressStoreItem (item : RMap) : RMap :=
  (match item.lookup "id" with | some v => [("id", v)] | none => []) ++
    (match item.lookup "nome" with
     | some v => [("nome", v)]
     | none =>
       match item.lookup "titulo" with
       | some v => [("titulo", v)]
       | none => []) ++
    (match item.lookup "status" with | some v => [("status", v)] | none => [])

/-- Compresses one recognized list field of a response (the store version
handles the `[]any` shape; non-map elements are skipped). -/
def compressListField (resp : RMap) (listKey : String) : RMap :=
  match resp.lookup listKey with
  | some (.vArr v) =>
    let compressed := v.toList.filterMap fun raw =>
      match raw with
      | .vObj fs => some (GoVal.vObj (RMap.toFields (compressStoreItem fs.toList)))
      | _ => none
    if compressed.length > 0 then resp.set listKey (.vArr (GoValList.ofList compressed))
    else resp
  | _ => resp

/-- Compression of one tool-response map: long fields truncated, list items
reduced to identifying fields. -/
def compressResponse (resp : RMap) : RMap :=
  storeListKeys.foldl compressListField (longFieldKeys.foldl truncLongField resp)

/-- compressTurnToolResponses from internal/store. -/
def compressTurnToolResponses (turn : ConversationTurn) : ConversationTurn :=
  { turn with
    parts := turn.parts.map fun p =>
      match p.functionResponse with
      | some fr => { p with functionResponse := some { fr with response := compressResponse fr.response } }
      | none => p }

/-- Compresses every turn except the most recent four, as the loop in
`SaveHistory` does (`break` once `i >= len(turns)-4`). -/
def compressOldTurns (turns : List ConversationTurn) : List ConversationTurn :=
  turns.mapIdx fun i t =>
    if i < turns.length - 4 then compressTurnToolResponses t else t

/-- Token-budget pruning loop of `SaveHistory`: drops the oldest turn while
more than two turns remain and the estimate exceeds the budget. -/
def pruneStoreLoop : List ConversationTurn → List ConversationTurn
  | [] => []
  | t :: rest =>
    if (t :: rest).length > 2 && estimateTokens (t :: rest) > maxHistoryTokens then
      pruneStoreLoop rest
    else t :: rest

/-- Orphan repair of `SaveHistory`: drops leading tool turns. -/
def dropLeadingTool : List ConversationTurn → List ConversationTurn
  | [] => []
  | t :: rest => if t.role == "tool" then dropLeadingTool rest else t :: rest

/-- Hard cap of `SaveHistory`: keeps the most recent `maxConversationTurns`
turns (`turns[len(turns)-maxConversationTurns:]`). -/
def hardCapTurns (turns : List ConversationTurn) : List ConversationTurn :=
  if turns.length > maxConversationTurns then
    turns.drop (turns.length - maxConversationTurns)
  else turns

/-- The pure turn transformation applied by `BoltStore.SaveHistory` before
persisting: hard cap, compression of old tool responses, token-budget
pruning, orphan repair. -/
def saveHistoryTurns (turns : List ConversationTurn) : List ConversationTurn :=
  dropLeadingTool (pruneStoreLoop (compressOldTurns (hardCapTurns turns)))

/-! ## Agent orchestrator (the OpenAI-based agent in package ai)

Constants from the source file. -/

/-- Maximum model/tool loop iterations. -/
def maxToolIterations : Nat := 5

/-- Tool responses older than this many turns get compressed. -/
def pruneKeepRecent : Nat := 4

/-- Doom loop: consecutive exact-signature threshold. -/
def doomLoopExactThreshold : Nat := 2

/-- Doom loop: per-tool-name threshold within one run. -/
def doomLoopNameThreshold : Nat := 4

/-- Incremental history pruning: max attempts before full clear. -/
def maxPruneAttempts : Nat := 3

/-- Proactive token budget for messages before sending to the model. -/
def maxMessageTokenBudget : Nat := 6000

/-- Rate limit window (modelled in seconds; `time.Minute` in the source). -/
def rateLimitWindow : Nat := 60

/-- Rate limit: maximum admitted messages per window. -/
def rateLimitMax : Nat := 10

/-- ButtonOption of the agent's structured reply. -/
structure ButtonOption where
  id : String
  title : String
deriving DecidableEq, Repr

/-- ListRow of the agent's structured reply. -/
structure ListRow where
  id : String
  title : String
  description : String
deriving DecidableEq, Repr

/-- ListSection of the agent's structured reply. -/
structure ListSection where
  title : String
  rows : List ListRow
deriving DecidableEq, Repr

/-- ListOption of the agent's structured reply. -/
structure ListOption where
  buttonText : String
  sections : List ListSection
deriving DecidableEq, Repr

/-- Response: the agent's structured reply (text, optional buttons or list). -/
structure Response where
  text : String
  buttons : List ButtonOption
  list : Option ListOption
deriving DecidableEq, Repr

/-- Plain-text reply. -/
def textResponse (t : String) : Response := ⟨t, [], none⟩

/-- functionCall of the OpenAI chat types (raw JSON argument string). -/
structure FunctionCallReq where
  name : String
  arguments : String

/-- toolCall of the OpenAI chat types. -/
structure ToolCallReq where
  id : String
  type : String
  function : FunctionCallReq

/-- chatMessage of the OpenAI chat types. -/
structure ChatMessage where
  role : String
  content : String
  toolCalls : List ToolCallReq
  toolCallID : String

/-- chatChoice of the OpenAI chat types. -/
structure ChatChoice where
  message : ChatMessage

/-- chatResponse of the OpenAI chat types (usage counters are only logged
and therefore omitted). -/
structure ChatResponse where
  choices : List ChatChoice

/-! ### Conversion helpers (agent source, bottom section) -/

/-- Keeps only `id`, the first of `nome`/`titulo`/`nome_completo`, and
`status` from a list item (`compressItem` in the agent source). -/
def compressItem (item : RMap) : RMap :=
  (match item.lookup "id" with | some v => [("id", v)] | none => []) ++
    (match item.lookup "nome" with
     | some v => [("nome", v)]
     | none =>
       match item.lookup "titulo" with
       | some v => [("titulo", v)]
       | none =>
         match item.lookup "nome_completo" with
         | some v => [("nome_completo", v)]
         | none => []) ++
    (match item.lookup "status" with | some v => [("status", v)] | none => [])

/-- Compressed items of one recognized list field, handling both runtime
shapes (`[]map[string]any` and `[]any`) as `compressToolResponse` does. -/
def compressedOfListVal : GoVal → List RMap
  | .vRecList xs => xs.toList.map compressItem
  | .vArr xs =>
    xs.toList.filterMap fun raw =>
      match raw with
      | .vObj fs => some (compressItem fs.toList)
      | _ => none
  | _ => []

/-- Adds one compressed list field to the summary when the key exists and
compression produced at least one item. -/
def addCompressedField (resp : RMap) (summary : RMap) (listKey : String) : RMap :=
  match resp.lookup listKey with
  | none => summary
  | some v =>
    let compressed := compressedOfListVal v
    if compressed.length > 0 then
      summary.set listKey (.vRecList (GoRecList.ofList compressed))
    else summary

/-- compressToolResponse from the agent source: reduces an old tool response
to a short summary string. -/
def compressToolResponse (fr : FunctionRespPart) : String :=
  match fr.response.lookup "error" with
  | some errVal =>
    "\x7b\"tool\":\"" ++ fr.name ++ "\",\"status\":\"error\",\"error\":\"" ++
      goFmtV errVal ++ "\"\x7d"
  | none =>
    let s0 : RMap := [("tool", .vStr fr.name), ("status", .vStr "ok")]
    let s1 := match fr.response.lookup "total" with
      | some v => s0.set "total" v
      | none => s0
    let s2 := match fr.response.lookup "id" with
      | some v => s1.set "id" v
      | none => s1
    let s3 := match fr.response.lookup "mensagem" with
      | some v => s2.set "mensagem" v
      | none => s2
    String.mk (serRMap (storeListKeys.foldl (addCompressedField fr.response) s3))

/-- Folds one stored part into the assistant message being built (text
overwrites content; each function call appends a tool call with marshalled
arguments). -/
def asstFold (msg : ChatMessage) (p : TurnPart) : ChatMessage :=
  let m1 := if p.text != "" then { msg with content := p.text } else msg
  match p.functionCall with
  | some fc =>
    { m1 with
      toolCalls := m1.toolCalls ++
        [⟨fc.id, "function", ⟨fc.name, String.mk (serRMap fc.args)⟩⟩] }
  | none => m1

/-- Converts one stored turn (at `turnsFromEnd` positions from the end of
the kept turns) into chat messages. -/
def turnToMessages (turnsFromEnd : Nat) (t : ConversationTurn) : List ChatMessage :=
  if t.role == "user" then
    t.parts.filterMap fun p =>
      if p.text != "" then some ⟨"user", p.text, [], ""⟩ else none
  else if t.role == "assistant" then
    [t.parts.foldl asstFold ⟨"assistant", "", [], ""⟩]
  else if t.role == "tool" then
    t.parts.filterMap fun p =>
      p.functionResponse.map fun fr =>
        let content :=
          if turnsFromEnd ≤ pruneKeepRecent then String.mk (serRMap fr.response)
          else compressToolResponse fr
        ⟨"tool", content, [], fr.toolCallID⟩
  else []

/-- Conversion of the kept turns, threading the position counter. -/
def convMessages (total : Nat) : Nat → List ConversationTurn → List ChatMessage
  | _, [] => []
  | i, t :: rest => turnToMessages (total - i) t ++ convMessages total (i + 1) rest

/-- toOpenAIMessages from the agent source: drops the whole history when any
old Gemini-format turn (role "model") is present, skips leading tool turns,
and compresses tool responses older than `pruneKeepRecent` turns. -/
def toOpenAIMessages (turns : List ConversationTurn) : List ChatMessage :=
  if turns.any fun t => t.role == "model" then []
  else
    let rest := dropLeadingTool turns
    convMessages rest.length 0 rest

/-- messageToTurn from the agent source (`parseJson` is the oracle for
`encoding/json.Unmarshal` into a `map[string]any`; a parse failure yields an
empty argument map). -/
def messageToTurn (parseJson : String → Option RMap) (msg : ChatMessage) : ConversationTurn :=
  { role := msg.role,
    parts :=
      (if msg.content != "" then [⟨msg.content, none, none⟩] else []) ++
        msg.toolCalls.map fun tc =>
          ⟨"", some ⟨tc.id, tc.function.name, (parseJson tc.function.arguments).getD []⟩, none⟩ }

/-- estimateMessagesTokens from the agent source. -/
def estimateMessagesTokens (messages : List ChatMessage) : Nat :=
  tokenHeuristic
    ((messages.map fun m =>
        strBytes m.content +
          (m.toolCalls.map fun tc =>
            strBytes tc.function.arguments + strBytes tc.function.name).sum).sum)

/-- First phase of `pruneMessages`: drops the first non-system message while
over budget and more than two messages remain. -/
def dropSecondWhileOver : List ChatMessage → List ChatMessage
  | m0 :: m1 :: m2 :: rest =>
    if estimateMessagesTokens (m0 :: m1 :: m2 :: rest) > maxMessageTokenBudget then
      dropSecondWhileOver (m0 :: m2 :: rest)
    else m0 :: m1 :: m2 :: rest
  | l => l
termination_by l => l.length
decreasing_by simp_arith

/-- Second phase of `pruneMessages`: fixes orphaned tool messages at the
start (position 1, right after the system message). -/
def dropOrphanToolMsgs : List ChatMessage → List ChatMessage
  | m0 :: m1 :: rest =>
    if m1.role == "tool" then dropOrphanToolMsgs (m0 :: rest) else m0 :: m1 :: rest
  | l => l
termination_by l => l.length
decreasing_by simp_arith

/-- pruneMessages from the agent source (its `userName`/`userID` parameters
are unused in the Go body as well). -/
def pruneMessages (messages : List ChatMessage) (_userName : String) (_userID : Int) :
    List ChatMessage :=
  dropOrphanToolMsgs (dropSecondWhileOver messages)

/-- rebuildTurns from the agent source: converts pruned messages back to
conversation turns, dropping the system message. -/
def rebuildTurns (parseJson : String → Option RMap) (messages : List ChatMessage) :
    List ConversationTurn :=
  messages.filterMap fun m =>
    if m.role == "system" then none
    else
      some
        { role := m.role,
          parts :=
            (if m.content != "" then
              (if m.role == "tool" && m.toolCallID != "" then
                (match parseJson m.content with
                 | some resp => [⟨"", none, some ⟨m.toolCallID, "", resp⟩⟩]
                 | none => [])
              else [⟨m.content, none, none⟩])
            else []) ++
              m.toolCalls.map fun tc =>
                ⟨"", some ⟨tc.id, tc.function.name, (parseJson tc.function.arguments).getD []⟩,
                  none⟩ }

/-- String field read with the Go two-value type assertion (default ""). -/
def getStrField (m : RMap) (k : String) : String :=
  match m.lookup k with
  | some (.vStr s) => s
  | _ => ""

/-- parseInteractiveResponse from the agent source. -/
def parseInteractiveResponse (args : RMap) : Response :=
  let text := getStrField args "text"
  let msgType := getStrField args "message_type"
  if msgType == "buttons" then
    let buttons :=
      match args.lookup "buttons" with
      | some (.vArr bs) =>
        bs.toList.filterMap fun b =>
          match b with
          | .vObj fs => some (⟨getStrField fs.toList "id", getStrField fs.toList "title"⟩ : ButtonOption)
          | _ => none
      | _ => []
    ⟨text, buttons, none⟩
  else if msgType == "list" then
    let bt0 := getStrField args "list_button_text"
    let bt := if bt0 == "" then "Ver opções" else bt0
    let sections :=
      match args.lookup "sections" with
      | some (.vArr ss) =>
        ss.toList.filterMap fun s =>
          match s with
          | .vObj sec =>
            let rows :=
              match (GoFields.toList sec).lookup "rows" with
              | some (.vArr rs) =>
                rs.toList.filterMap fun r =>
                  match r with
                  | .vObj row =>
                    some (⟨getStrField row.toList "id", getStrField row.toList "title",
                      getStrField row.toList "description"⟩ : ListRow)
                  | _ => none
              | _ => []
            some (⟨getStrField sec.toList "title", rows⟩ : ListSection)
          | _ => none
      | _ => []
    ⟨text, [], some ⟨bt, sections⟩⟩
  else ⟨text, [], none⟩

/-! ### Rate limiter (`Agent.allowRequest`) -/

/-- rateBucket from the agent source (time modelled as `Nat` ticks). -/
structure RateBucket where
  count : Nat
  window : Nat
deriving DecidableEq, Repr

/-- The agent's per-phone counter map. -/
def RateState := List (String × RateBucket)

/-- Bucket lookup. -/
def RateState.lookup (c : RateState) (phone : String) : Option RateBucket :=
  match c with
  | [] => none
  | (p, b) :: t => if p == phone then some b else RateState.lookup t phone

/-- Bucket assignment (replace or insert). -/
def RateState.set (c : RateState) (phone : String) (b : RateBucket) : RateState :=
  match c with
  | [] => [(phone, b)]
  | (p, b') :: t => if p == phone then (p, b) :: t else (p, b') :: RateState.set t phone b

/-- allowRequest from the agent source.  `now - window` is Go's signed
`time.Sub`; `Nat` subtraction agrees with it on the `> window` test for
monotone clocks (and both sides answer `false` when `now < window`). -/
def allowRequest (counters : RateState) (now : Nat) (phone : String) : Bool × RateState :=
  match counters.lookup phone with
  | none => (true, counters.set phone ⟨1, now⟩)
  | some b =>
    if now - b.window > rateLimitWindow then (true, counters.set phone ⟨1, now⟩)
    else if b.count ≥ rateLimitMax then (false, counters)
    else (true, counters.set phone ⟨b.count + 1, b.window⟩)

/-- Iterates `allowRequest` for one phone over a list of arrival times,
counting admitted requests. -/
def runRateCalls (counters : RateState) (phone : String) : List Nat → Nat × RateState
  | [] => (0, counters)
  | t :: rest =>
    let (ok, c2) := allowRequest counters t phone
    let (n, c3) := runRateCalls c2 phone rest
    ((if ok then 1 else 0) + n, c3)

/-! ### Doom-loop detection state (agent loop, lines before dispatch) -/

/-- Per-run doom-loop tracking state. -/
structure DoomState where
  lastToolSig : String
  sameExactCount : Nat
  toolNameCounts : List (String × Nat)

/-- Per-name counter lookup (a missing key reads 0, as a Go map does). -/
def lookupCount : List (String × Nat) → String → Nat
  | [], _ => 0
  | (k, n) :: t, name => if k == name then n else lookupCount t name

/-- Per-name counter increment (`toolNameCounts[tc.Function.Name]++`). -/
def bumpCount : List (String × Nat) → String → List (String × Nat)
  | [], name => [(name, 1)]
  | (k, n) :: t, name =>
    if k == name then (k, n + 1) :: t else (k, n) :: bumpCount t name

/-- The doom-loop scan over one iteration's requested tool calls: either the
updated tracking state, or the first call at which a threshold is crossed. -/
def doomScan (st : DoomState) : List ToolCallReq → DoomState ⊕ ToolCallReq
  | [] => .inl st
  | tc :: rest =>
    let sig := tc.function.name ++ ":" ++ tc.function.arguments
    let sameExact := if sig == st.lastToolSig then st.sameExactCount + 1 else 1
    let counts := bumpCount st.toolNameCounts tc.function.name
    if sameExact > doomLoopExactThreshold ||
        lookupCount counts tc.function.name > doomLoopNameThreshold then
      .inr tc
    else doomScan ⟨sig, sameExact, counts⟩ rest

/-! ### Tool dispatch (parallel for read-only batches, else sequential) -/

/-- Trace events of one agent run (instrumentation of the embedding). -/
inductive AgentEv where
  | modelCall (k : Nat) (msgs : List ChatMessage)
  | toolWrapperCall (name : String) (arguments : String)
  | clearHist
  | saveHist (turns : List ConversationTurn)

/-- Structured error result for undecodable tool-call arguments. -/
def invalidArgsResult (name : String) : RMap :=
  [("status", .vStr "error"),
    ("error", .vObj (RMap.toFields
      [("type", .vStr ErrorType.validation.str),
        ("message", .vStr ("Argumentos inválidos para " ++ name ++ ". Verifique e tente novamente."))]))]

/-- Structured error result built from a classified tool error. -/
def toolErrorResult (te : ToolError) : RMap :=
  [("status", .vStr "error"),
    ("error", .vObj (RMap.toFields
      [("type", .vStr te.type.str), ("message", .vStr te.message)]))]

/-- Final outcome of one wrapper call with the retry-once-if-retryable
policy applied. -/
inductive FinalCall where
  | pass (result : RMap)
  | failed (te : ToolError)

/-- Executes one tool call through the wrapper, retrying once when the
classifier marks the first failure retryable, and reclassifying a failed
retry — exactly the agent's per-call error handling. -/
def execWithRetry (reg : Registry) (k : Nat) (name : String) (rawArgs : String) (args : RMap) :
    FinalCall × Nat × List AgentEv :=
  let (o1, _) := reg.executeTool k name args
  match o1 with
  | .ok r => (.pass r, k + 1, [.toolWrapperCall name rawArgs])
  | _ =>
    let te1 := ClassifyError o1.errText
    if te1.retryable then
      let (o2, _) := reg.executeTool (k + 1) name args
      match o2 with
      | .ok r => (.pass r, k + 2, [.toolWrapperCall name rawArgs, .toolWrapperCall name rawArgs])
      | _ =>
        (.failed (ClassifyError o2.errText), k + 2,
          [.toolWrapperCall name rawArgs, .toolWrapperCall name rawArgs])
    else (.failed te1, k + 1, [.toolWrapperCall name rawArgs])

/-- Appends one tool-result map to the chat messages and the transcript. -/
def appendToolResult (msgs : List ChatMessage) (turns : List ConversationTurn)
    (tc : ToolCallReq) (result : RMap) : List ChatMessage × List ConversationTurn :=
  (msgs ++ [⟨"tool", String.mk (serRMap result), [], tc.id⟩],
    turns ++ [⟨"tool", [⟨"", none, some ⟨tc.id, tc.function.name, result⟩⟩]⟩])

/-- Outcome of one sequential tool-call step. -/
inductive SeqStep where
  | appendRes (result : RMap) (nk : Nat) (evs : List AgentEv)
  | abortAuth (te : ToolError) (nk : Nat) (evs : List AgentEv)

/-- One sequential tool call: argument decoding, wrapper execution with
retry, and the auth-abort check on the final failure. -/
def seqStep (reg : Registry) (parseJson : String → Option RMap) (k : Nat)
    (tc : ToolCallReq) : SeqStep :=
  match parseJson tc.function.arguments with
  | none => .appendRes (invalidArgsResult tc.function.name) k []
  | some args =>
    match execWithRetry reg k tc.function.name tc.function.arguments args with
    | (.pass r, nk, evs) => .appendRes r nk evs
    | (.failed te, nk, evs) =>
      if te.type == ErrorType.auth then .abortAuth te nk evs
      else .appendRes (toolErrorResult te) nk evs

/-- Outcome of a whole dispatch batch. -/
inductive DispatchOut where
  | next (messages : List ChatMessage) (allTurns : List ConversationTurn) (nk : Nat)
  | abort (err : String)

/-- Sequential dispatch of one iteration's tool calls. -/
def seqDispatch (reg : Registry) (parseJson : String → Option RMap) :
    List ToolCallReq → List ChatMessage → List ConversationTurn → Nat →
      DispatchOut × List AgentEv
  | [], msgs, turns, k => (.next msgs turns k, [])
  | tc :: rest, msgs, turns, k =>
    match seqStep reg parseJson k tc with
    | .appendRes r nk evs =>
      let (m2, t2) := appendToolResult msgs turns tc r
      let (out, evs2) := seqDispatch reg parseJson rest m2 t2 nk
      (out, evs ++ evs2)
    | .abortAuth te _ evs =>
      (.abort ("auth_error: " ++ te.rawError), evs ++ [.saveHist turns])

/-- Result map of one parallel (read-only) tool call.  The goroutines of
the batch run concurrently; the model assigns each batch member the
invocation indices `k+2i` and `k+2i+1` (a call makes at most two wrapper
invocations). -/
def parResult (reg : Registry) (parseJson : String → Option RMap) (k i : Nat)
    (tc : ToolCallReq) : RMap × List AgentEv :=
  match parseJson tc.function.arguments with
  | none => (invalidArgsResult tc.function.name, [])
  | some args =>
    match execWithRetry reg (k + 2 * i) tc.function.name tc.function.arguments args with
    | (.pass r, _, evs) => (r, evs)
    | (.failed te, _, evs) => (toolErrorResult te, evs)

/-- The auth-error check the parallel branch applies to each result map
(`r.result["error"].(map[string]any)` with `errMap["type"] == "auth_error"`). -/
def isAuthResult (r : RMap) : Bool :=
  match r.lookup "error" with
  | some (.vObj fs) =>
    match (GoFields.toList fs).lookup "type" with
    | some (.vStr s) => s == "auth_error"
    | _ => false
  | _ => false

/-- Error text of the parallel auth abort
(`fmt.Errorf("auth_error: %v", errMap["message"])`). -/
def authAbortText (r : RMap) : String :=
  match r.lookup "error" with
  | some (.vObj fs) => "auth_error: " ++ goFmtV (((GoFields.toList fs).lookup "message").getD .vNull)
  | _ => "auth_error: <nil>"

/-- Parallel dispatch of an all-read-only batch: every call runs to
completion, then the auth scan may abort before any result is appended. -/
def parDispatch (reg : Registry) (parseJson : String → Option RMap)
    (tcs : List ToolCallReq) (msgs : List ChatMessage) (turns : List ConversationTurn)
    (k : Nat) : DispatchOut × List AgentEv :=
  let results := tcs.mapIdx fun i tc => (tc, parResult reg parseJson k i tc)
  let evs := (results.map fun p => p.2.2).flatten
  match results.find? fun p => isAuthResult p.2.1 with
  | some p => (.abort (authAbortText p.2.1), evs ++ [.saveHist turns])
  | none =>
    let mt := results.foldl (fun mt p => appendToolResult mt.1 mt.2 p.1 p.2.1) (msgs, turns)
    (.next mt.1 mt.2 (k + 2 * tcs.length), evs)

/-- Dispatch: parallel when every requested tool is read-only and the batch
has more than one call, sequential otherwise. -/
def dispatchTools (reg : Registry) (parseJson : String → Option RMap)
    (tcs : List ToolCallReq) (msgs : List ChatMessage) (turns : List ConversationTurn)
    (k : Nat) : DispatchOut × List AgentEv :=
  let allReadOnly := tcs.all fun tc => reg.isReadOnly tc.function.name
  if allReadOnly && tcs.length > 1 then parDispatch reg parseJson tcs msgs turns k
  else seqDispatch reg parseJson tcs msgs turns k

/-! ### The agent loop (`Agent.Handle`) -/

/-- Oracles and fixed per-run inputs of one `Agent.Handle` invocation.
`model` is the outcome of the `k`-th `chatCompletion` call (the HTTP
boundary, including its internal transport retries); `parseJson` is the
`encoding/json.Unmarshal` oracle; `sysPrompt` is the output of
`BuildSystemPrompt(user.Name, user.GLPIUserID)`. -/
structure AgentEnv where
  model : Nat → Except String ChatResponse
  registry : Registry
  parseJson : String → Option RMap
  userName : String
  userID : Int
  sysPrompt : String
  userText : String
  history : List ConversationTurn

/-- The system message of the request. -/
def sysMsg (env : AgentEnv) : ChatMessage := ⟨"system", env.sysPrompt, [], ""⟩

/-- The new user message of the request. -/
def userMsg (env : AgentEnv) : ChatMessage := ⟨"user", env.userText, [], ""⟩

/-- The new user turn appended to the transcript. -/
def userTurn (env : AgentEnv) : ConversationTurn := ⟨"user", [⟨env.userText, none, none⟩]⟩

/-- Mutable state of the agent loop. -/
structure LoopState where
  messages : List ChatMessage
  allTurns : List ConversationTurn
  doom : DoomState
  pruneAttempt : Nat
  callIdx : Nat
  execIdx : Nat

/-- Context-overflow test on a model-call error string. -/
def isContextOverflow (e : String) : Bool :=
  hasSubstr e.data "context_length_exceeded".data ||
    hasSubstr e.data "maximum context length".data

/-- Generic 400 test on a model-call error string. -/
def isStatus400 (e : String) : Bool :=
  hasSubstr e.data "status 400".data

/-- The drop loop of the incremental recovery: `dropCount` times, drop the
oldest turn as long as more than one turn remains. -/
def dropOldestLoop : Nat → List ConversationTurn → List ConversationTurn
  | 0, ts => ts
  | n + 1, ts => dropOldestLoop n (if ts.length > 1 then ts.tail else ts)

/-- Proactive token-budget check at the top of each iteration. -/
def preState (env : AgentEnv) (st : LoopState) :
    List ChatMessage × List ConversationTurn :=
  if estimateMessagesTokens st.messages > maxMessageTokenBudget then
    let m := pruneMessages st.messages env.userName env.userID
    (m, rebuildTurns env.parseJson m)
  else (st.messages, st.allTurns)

/-- The fixed doom-loop user message for a tool name. -/
def doomMsgText (name : String) : String :=
  "A ferramenta " ++ name ++ " travou em um loop. Tente reformular seu pedido ou dividir em perguntas menores."

/-- Final outcome of a run: a structured reply, or an error returned to the
caller (`return nil, err` in the source). -/
inductive AgentOutcome where
  | reply (r : Response)
  | fail (err : String)

/-- Result of one loop iteration: continue with a new state, or finish. -/
inductive IterOut where
  | next (st : LoopState)
  | done (out : AgentOutcome)

/-- One iteration of the agent loop, mirroring the body of the
`for range maxToolIterations` loop in `Agent.Handle`. -/
def runIter (env : AgentEnv) (st : LoopState) : IterOut × List AgentEv :=
  let mt := preState env st
  let msgs := mt.1
  let turns := mt.2
  let ev0 : List AgentEv := [.modelCall st.callIdx msgs]
  match env.model st.callIdx with
  | .error e =>
    let ov := isContextOverflow e
    let b4 := isStatus400 e
    if (b4 || ov) && st.pruneAttempt < maxPruneAttempts then
      let pa := st.pruneAttempt + 1
      let dropCount := if ov then pa * 2 else pa
      let turns2 := dropOldestLoop dropCount turns
      (.next
        { messages := sysMsg env :: toOpenAIMessages turns2, allTurns := turns2,
          doom := st.doom, pruneAttempt := pa, callIdx := st.callIdx + 1,
          execIdx := st.execIdx }, ev0)
    else if b4 || ov then
      (.next
        { messages := [sysMsg env, userMsg env], allTurns := [userTurn env],
          doom := st.doom, pruneAttempt := st.pruneAttempt, callIdx := st.callIdx + 1,
          execIdx := st.execIdx }, ev0 ++ [.clearHist])
    else (.done (.fail ("chatCompletion: " ++ e)), ev0)
  | .ok resp =>
    match resp.choices with
    | [] =>
      (.done (.reply (textResponse
        "Não recebi resposta do sistema de IA. Tente novamente em alguns segundos.")), ev0)
    | choice :: _ =>
      let msg := choice.message
      let turns2 := turns ++ [messageToTurn env.parseJson msg]
      let msgs2 := msgs ++ [msg]
      if msg.toolCalls.isEmpty then
        let responseText :=
          if msg.content == "" then
            "Não consegui formular uma resposta. Pode repetir ou reformular sua pergunta?"
          else msg.content
        (.done (.reply (textResponse responseText)), ev0 ++ [.saveHist turns2])
      else
        match msg.toolCalls.find? fun tc => tc.function.name == "respond_interactive" with
        | some tc =>
          let args := (env.parseJson tc.function.arguments).getD
            [("text", .vStr "Desculpe, houve um erro ao montar a resposta. Tente novamente.")]
          let turns3 := turns2 ++
            [⟨"tool", [⟨"", none, some ⟨tc.id, tc.function.name, [("status", .vStr "delivered")]⟩⟩]⟩]
          (.done (.reply (parseInteractiveResponse args)), ev0 ++ [.saveHist turns3])
        | none =>
          match doomScan st.doom msg.toolCalls with
          | .inr badTc =>
            (.done (.reply (textResponse (doomMsgText badTc.function.name))),
              ev0 ++ [.saveHist turns2])
          | .inl doom2 =>
            match dispatchTools env.registry env.parseJson msg.toolCalls msgs2 turns2 st.execIdx with
            | (.abort err, evs) => (.done (.fail err), ev0 ++ evs)
            | (.next m3 t3 k3, evs) =>
              (.next
                { messages := m3, allTurns := t3, doom := doom2, pruneAttempt := 0,
                  callIdx := st.callIdx + 1, execIdx := k3 }, ev0 ++ evs)

/-- The bounded agent loop; exhausting the iteration budget persists memory
and returns the fixed too-complex reply. -/
def runLoop (env : AgentEnv) : Nat → LoopState → AgentOutcome × List AgentEv
  | 0, st =>
    (.reply (textResponse "Sua solicitação precisou de muitas etapas. Tente dividir em perguntas menores."),
      [.saveHist st.allTurns])
  | n + 1, st =>
    match runIter env st with
    | (.next st2, evs) =>
      let r := runLoop env n st2
      (r.1, evs ++ r.2)
    | (.done out, evs) => (out, evs)

/-- The initial request messages: system prompt, converted history, new
user message. -/
def initialMessages (env : AgentEnv) : List ChatMessage :=
  sysMsg env :: (toOpenAIMessages env.history ++ [userMsg env])

/-- The initial transcript: loaded history plus the new user turn. -/
def initialTurns (env : AgentEnv) : List ConversationTurn :=
  env.history ++ [userTurn env]

/-- The loop state `Agent.Handle` starts from. -/
def initState (env : AgentEnv) : LoopState :=
  ⟨initialMessages env, initialTurns env, ⟨"", 0, []⟩, 0, 0, 0⟩

/-- The fixed throttling reply. -/
def throttleText : String :=
  "Você está enviando mensagens muito rápido. Aguarde um minuto e tente novamente."

/-- Agent.Handle: rate-limit admission, GLPI session initialisation (an
oracle; its failure is returned to the caller), then the bounded loop. -/
def handle (env : AgentEnv) (counters : RateState) (now : Nat) (phone : String)
    (initSession : Except String String) : AgentOutcome × RateState × List AgentEv :=
  let ar := allowRequest counters now phone
  if !ar.1 then (.reply (textResponse throttleText), ar.2, [])
  else
    match initSession with
    | .error e => (.fail ("initSession: " ++ e), ar.2, [])
    | .ok _ =>
      let r := runLoop env maxToolIterations (initState env)
      (r.1, ar.2, r.2)

/-! ## Session serializer (package session, Manager)

The Manager is concurrent code; it is embedded as a labelled transition
system over explicit states.  A `userLock` object is identified by the
`Nat` id it received at creation; `table` is the `mutexes` map, `lastUsed`
the per-lock timestamp, `held` the set of locks currently inside a critical
section (with the phone that entered).  `enter` models `WithLock` up to the
start of `fn` (get-or-create under the table mutex, acquire the user lock —
enabled only when that lock is free — then stamp `lastUsed`); `leave`
models the deferred unlock; `cleanup` models `Cleanup(maxAge)`, which
deletes table entries by `lastUsed` age only. -/

structure SessState where
  table : List (String × Nat)
  lastUsed : List (Nat × Nat)
  held : List (Nat × String)
  nextId : Nat

/-- Operations of the session-manager transition system. -/
inductive SessOp where
  | enter (phone : String) (now : Nat)
  | leave (lockId : Nat)
  | cleanup (maxAge : Nat) (now : Nat)

/-- Association lookup for `Nat`-keyed lists. -/
def natLookup : List (Nat × Nat) → Nat → Option Nat
  | [], _ => none
  | (k, v) :: t, key => if k == key then some v else natLookup t key

/-- Association assignment for `Nat`-keyed lists. -/
def natSet : List (Nat × Nat) → Nat → Nat → List (Nat × Nat)
  | [], key, v => [(key, v)]
  | (k, v') :: t, key, v =>
    if k == key then (k, v) :: t else (k, v') :: natSet t key v

/-- Phone lookup in the lock table. -/
def tableLookup : List (String × Nat) → String → Option Nat
  | [], _ => none
  | (p, id) :: t, phone => if p == phone then some id else tableLookup t phone

/-- Whether a lock id is currently held. -/
def isHeld (held : List (Nat × String)) (id : Nat) : Bool :=
  held.any fun h => h.1 == id

/-- One enabled transition of the session manager (`none` when the
operation is blocked or invalid in the current state). -/
def sessStep (s : SessState) : SessOp → Option SessState
  | .enter phone now =>
    match tableLookup s.table phone with
    | some id =>
      if isHeld s.held id then none
      else some { s with held := (id, phone) :: s.held, lastUsed := natSet s.lastUsed id now }
    | none =>
      let id := s.nextId
      some
        { table := (phone, id) :: s.table, lastUsed := natSet s.lastUsed id now,
          held := (id, phone) :: s.held, nextId := s.nextId + 1 }
  | .leave lockId =>
    if isHeld s.held lockId then
      some { s with held := s.held.filter fun h => h.1 != lockId }
    else none
  | .cleanup maxAge now =>
    some
      { s with
        table := s.table.filter fun e =>
          !(now - ((natLookup s.lastUsed e.2).getD 0) > maxAge) }

/-- Runs a sequence of operations from a state. -/
def sessRun (s : SessState) : List SessOp → Option SessState
  | [] => some s
  | op :: rest =>
    match sessStep s op with
    | some s2 => sessRun s2 rest
    | none => none

/-- The empty initial state of `NewManager`. -/
def sessInit : SessState := ⟨[], [], [], 0⟩

/-- Number of critical sections currently running for one phone. -/
def heldCountFor (s : SessState) (phone : String) : Nat :=
  (s.held.filter fun h => h.2 == phone).length

/-! ## Specification predicates and concrete fixtures used by the theorems -/

/-- Whether a doom scan ended in an abort. -/
def doomTriggered : DoomState ⊕ ToolCallReq → Bool
  | .inl _ => false
  | .inr _ => true

/-- Declarative type check of one declared property against a supplied
value, following the specification's wording. -/
def typeOkSpec (p : ParamSchema) (v : GoVal) : Prop :=
  (p.type = "string" → ∃ s, v = .vStr s ∧ s ≠ "" ∧ (p.enum ≠ [] → s ∈ p.enum)) ∧
    ((p.type = "integer" ∨ p.type = "number") → ∃ n, v = .vNum n)

/-- Declarative acceptance condition for one required parameter: present,
non-null, and well-typed for its declared property schema (if any). -/
def reqOkSpec (props : List (String × ParamSchema)) (args : RMap) (req : String) : Prop :=
  ∃ v, args.lookup req = some v ∧ v ≠ .vNull ∧
    ∀ p, lookupProp props req = some p → typeOkSpec p v

/-- Declarative acceptance condition for an argument map: every declared
required parameter is present, non-null, and well-typed for its declared
property schema. -/
def argsValidSpec (schema : ParamSchema) (args : RMap) : Prop :=
  ∀ req ∈ schema.required, reqOkSpec schema.properties args req

/-- A sequential tool call whose final wrapper outcome (after the
retry-once policy) is a failure the classifier marks as `Auth`. -/
def authFailureAt (reg : Registry) (parseJson : String → Option RMap) (k : Nat)
    (tc : ToolCallReq) (te : ToolError) (nk : Nat) (evs : List AgentEv) : Prop :=
  ∃ args, parseJson tc.function.arguments = some args ∧
    execWithRetry reg k tc.function.name tc.function.arguments args = (.failed te, nk, evs) ∧
    te.type = .auth

/-- One oversized record for the output-shaping counterexample: its bulk
sits in a field the truncation pass does not strip. -/
def bigItem (i : Nat) : RMap :=
  [("id", .vNum (Int.ofNat i)), ("payload", .vStr (String.mk (List.replicate 900 'a')))]

/-- The 11 oversized records of the counterexample result. -/
def ceItems : List RMap :=
  [bigItem 0, bigItem 1, bigItem 2, bigItem 3, bigItem 4, bigItem 5, bigItem 6,
    bigItem 7, bigItem 8, bigItem 9, bigItem 10]

/-- A successful tool result with one recognized list field of 11 oversized
records. -/
def ceResult : RMap := [("chamados", .vRecList (GoRecList.ofList ceItems))]

/-- The 10 records the first truncation pass keeps. -/
def ceKept : List RMap :=
  [bigItem 0, bigItem 1, bigItem 2, bigItem 3, bigItem 4, bigItem 5, bigItem 6,
    bigItem 7, bigItem 8, bigItem 9]

/-- The map the wrapper returns on the counterexample input. -/
def ceOut : RMap :=
  [("chamados", .vRecList (GoRecList.ofList ceKept)),
    ("_truncated", .vBool true),
    ("_truncated_field", .vStr "chamados"),
    ("_original_count", .vNum 11),
    ("_nota", .vStr "Mostrando 10 de 11 resultados. Sugira ao usuário refinar a busca.")]

/-- One small record for the output-shaping witness. -/
def wSmallItem (i : Nat) : RMap := [("id", .vNum (Int.ofNat i)), ("descricao", .vStr "longa")]

/-- A result with one recognized list field of 11 small records. -/
def wSmallResult : RMap :=
  [("chamados", .vRecList (GoRecList.ofList ((List.range 11).map wSmallItem)))]

/-- Interleaving that exhibits the session-lock sweep unsoundness: a holder
enters at time 0, a sweep runs at time 100 with TTL 60, a second entry for
the same phone follows. -/
def sessBugTrace : List SessOp :=
  [.enter "u" 0, .cleanup 60 100, .enter "u" 100]

/-- Concrete repeated tool call (empty JSON argument object). -/
def wCallT : ToolCallReq := ⟨"1", "function", ⟨"t", "\x7b\x7d"⟩⟩

/-- Model message requesting the same call three times. -/
def wDoomMsg : ChatMessage := ⟨"assistant", "", [wCallT, wCallT, wCallT], ""⟩

/-- Environment whose model always requests `wDoomMsg`. -/
def wEnvC1 : AgentEnv :=
  ⟨fun _ => .ok ⟨[⟨wDoomMsg⟩]⟩, [], fun _ => some [], "A", 1, "sys", "oi", []⟩

/-- Environment whose model always fails with a context-overflow error. -/
def wEnvC3 : AgentEnv :=
  ⟨fun _ => .error "maximum context length", [], fun _ => some [], "A", 1, "sys", "oi",
    [⟨"user", [⟨"antes", none, none⟩]⟩, ⟨"assistant", [⟨"ok", none, none⟩]⟩]⟩

/-- A tool that always fails with a 401. -/
def wAuthTool : Tool := ⟨"x", "d", none, false, fun _ _ => .error "401 unauthorized"⟩

/-- Registry holding only the failing tool. -/
def wRegC4 : Registry := [wAuthTool]

/-- A call to the failing tool. -/
def wCallX : ToolCallReq := ⟨"9", "function", ⟨"x", "\x7b\x7d"⟩⟩

/-- Schema with one required string parameter. -/
def wSchema : ParamSchema :=
  .mk "object" "" [("q", .mk "string" "" [] [] [] none)] ["q"] [] none

/-- A read-only tool guarded by `wSchema`. -/
def wQTool : Tool := ⟨"search", "d", some wSchema, true, fun _ _ => .ok [("total", .vNum 0)]⟩

/-- Registry holding only the guarded tool. -/
def wRegC6 : Registry := [wQTool]

/-- Environment whose loaded history is old Gemini-format (role "model"). -/
def wEnvC10 : AgentEnv :=
  ⟨fun _ => .error "e", [], fun _ => some [], "A", 1, "sys", "oi", [⟨"model", []⟩]⟩

/-- Turn list starting with an orphaned tool turn. -/
def wTurnsC2 : List ConversationTurn :=
  [⟨"tool", [⟨"", none, some ⟨"c1", "t", [("status", .vStr "ok")]⟩⟩]⟩,
    ⟨"user", [⟨"oi", none, none⟩]⟩]

/-! ## Theorems -/

/-- C8: the session-lock claim states that a sweep never removes a per-user
lock entry while that user's lock is held, so two critical sections for the
same user can never run concurrently.  The code violates this: `Cleanup`
deletes entries purely by `lastUsed` age (stamped at acquisition), so while
a long critical section holds the lock, a sweep can delete its table entry
and a subsequent `WithLock` for the same phone creates a fresh lock and
enters concurrently.  The first conjunct exhibits the reachable state with
two concurrent critical sections for phone "u"; the second confirms that
without the sweep the second entry is blocked. -/
theorem claim_C8_cleanup_removes_held_lock :
    (∃ s : SessState, sessRun sessInit sessBugTrace = some s ∧ heldCountFor s "u" = 2) ∧
      sessRun sessInit [.enter "u" 0, .enter "u" 100] = none :=
  ⟨⟨_, rfl, rfl⟩, rfl⟩

/-- C10: whenever any stored turn has role "model" (old Gemini-format
history), `toOpenAIMessages` returns the empty list, so the model request
holds only the system prompt and the new user message. -/
theorem claim_C10_legacy_history_discard :
    ∀ turns : List ConversationTurn, (∃ t ∈ turns, t.role = "model") →
      toOpenAIMessages turns = [] ∧
        ∀ env : AgentEnv, env.history = turns →
          initialMessages env = [sysMsg env, userMsg env] := by
  intro turns ht
  obtain ⟨t, htmem, hrole⟩ := ht
  have hany : (turns.any fun t => t.role == "model") = true :=
    List.any_eq_true.mpr ⟨t, htmem, by simp [hrole]⟩
  refine ⟨by simp [toOpenAIMessages, hany], ?_⟩
  intro env henv
  simp [initialMessages, toOpenAIMessages, henv, hany]

/-- Witness for C10 at a concrete one-turn Gemini-format history. -/
theorem claim_C10_witness :
    toOpenAIMessages [⟨"model", []⟩] = [] ∧
      initialMessages wEnvC10 = [sysMsg wEnvC10, userMsg wEnvC10] := by
  have h := claim_C10_legacy_history_discard [⟨"model", []⟩] ⟨⟨"model", []⟩, by simp, rfl⟩
  exact ⟨h.1, h.2 wEnvC10 rfl⟩

/-- C5: classification is a pure function of the error text, matching by
lower-cased substring with first-match-wins precedence timeout → auth →
not-found → rate-limit → server → session → validation, falling back to a
non-retryable generic server error; the raw text is always preserved and
validation messages pass through verbatim.  The trailing conjuncts
demonstrate precedence and case-insensitive substring matching on concrete
texts. -/
theorem claim_C5_error_classification :
    ∀ raw : String,
      (ClassifyError raw).rawError = raw ∧
      (containsAny raw timeoutMarkers = true →
        ClassifyError raw = ⟨.timeout, "O Nexus demorou para responder. Tentando novamente...", raw, true⟩) ∧
      (containsAny raw timeoutMarkers = false → containsAny raw authMarkers = true →
        ClassifyError raw = ⟨.auth, "Sua sessão expirou. Reconectando...", raw, false⟩) ∧
      (containsAny raw timeoutMarkers = false → containsAny raw authMarkers = false →
        containsAny raw notFoundMarkers = true →
        ClassifyError raw = ⟨.notFound, "Recurso não encontrado no Nexus. Verifique o ID informado.", raw, false⟩) ∧
      (containsAny raw timeoutMarkers = false → containsAny raw authMarkers = false →
        containsAny raw notFoundMarkers = false → containsAny raw rateLimitMarkers = true →
        ClassifyError raw = ⟨.rateLimit, "Servidor ocupado, tentando novamente...", raw, true⟩) ∧
      (containsAny raw timeoutMarkers = false → containsAny raw authMarkers = false →
        containsAny raw notFoundMarkers = false → containsAny raw rateLimitMarkers = false →
        containsAny raw serverMarkers = true →
        ClassifyError raw = ⟨.server, "O Nexus está temporariamente indisponível. Tente novamente em alguns minutos.", raw, true⟩) ∧
      (containsAny raw timeoutMarkers = false → containsAny raw authMarkers = false →
        containsAny raw notFoundMarkers = false → containsAny raw rateLimitMarkers = false →
        containsAny raw serverMarkers = false → containsAny raw sessionMarkers = true →
        ClassifyError raw = ⟨.session, "Erro na sessão do Nexus. Pode ser necessário vincular novamente.", raw, false⟩) ∧
      (containsAny raw timeoutMarkers = false → containsAny raw authMarkers = false →
        containsAny raw notFoundMarkers = false → containsAny raw rateLimitMarkers = false →
        containsAny raw serverMarkers = false → containsAny raw sessionMarkers = false →
        containsAny raw validationMarkers = true →
        ClassifyError raw = ⟨.validation, raw, raw, false⟩) ∧
      (containsAny raw timeoutMarkers = false → containsAny raw authMarkers = false →
        containsAny raw notFoundMarkers = false → containsAny raw rateLimitMarkers = false →
        containsAny raw serverMarkers = false → containsAny raw sessionMarkers = false →
        containsAny raw validationMarkers = false →
        ClassifyError raw = ⟨.server, "Erro inesperado ao acessar o Nexus.", raw, false⟩) ∧
      (ClassifyError "401 timeout").type = .timeout ∧
      (ClassifyError "TIMEOUT").type = .timeout ∧
      (ClassifyError "downstream Rate Limit hit").type = .rateLimit := by
  intro raw
  refine ⟨?_, ?_, ?_, ?_, ?_, ?_, ?_, ?_, ?_, by decide, by decide, by decide⟩
  · unfold ClassifyError
    repeat' split
    all_goals rfl
  all_goals
    intros
    simp [ClassifyError, *]

/-- Witness for C5: the default branch at a concrete unmatched text. -/
theorem claim_C5_witness :
    ClassifyError "boom" = ⟨.server, "Erro inesperado ao acessar o Nexus.", "boom", false⟩ := by
  have h := claim_C5_error_classification "boom"
  exact h.2.2.2.2.2.2.2.2.1 (by decide) (by decide) (by decide) (by decide) (by decide)
    (by decide) (by decide)

/-- Looking up the phone just assigned returns the assigned bucket. -/
theorem RateState.lookup_set (c : RateState) (phone : String) (b : RateBucket) :
    (c.set phone b).lookup phone = some b := by
  induction c with
  | nil => simp [RateState.set, RateState.lookup]
  | cons hd tl ih =>
    obtain ⟨p, b'⟩ := hd
    by_cases h : p == phone
    · simp [RateState.set, RateState.lookup, h]
    · simp [RateState.set, RateState.lookup, h, ih]

/-- Within one bucket window (no reset), the number of admitted calls is
bounded by the remaining budget of the bucket. -/
theorem runRateCalls_le (phone : String) :
    ∀ (ts : List Nat) (counters : RateState) (b : RateBucket),
      counters.lookup phone = some b →
      (∀ t ∈ ts, t - b.window ≤ rateLimitWindow) →
      (runRateCalls counters phone ts).1 ≤ rateLimitMax - b.count := by
  intro ts
  induction ts with
  | nil => intro c b _ _; simp [runRateCalls]
  | cons t rest ih =>
    intro c b hb hw
    have hwt : t - b.window ≤ rateLimitWindow := hw t (by simp)
    have hnr : ¬(t - b.window > rateLimitWindow) := by omega
    by_cases hc : b.count ≥ rateLimitMax
    · have ha : allowRequest c t phone = (false, c) := by
        simp [allowRequest, hb, hnr, hc]
      have hrest := ih c b hb fun t' ht' => hw t' (by simp [ht'])
      simp only [runRateCalls, ha]
      simpa using hrest
    · have ha : allowRequest c t phone = (true, c.set phone ⟨b.count + 1, b.window⟩) := by
        simp [allowRequest, hb, hnr, hc]
      have hrest := ih (c.set phone ⟨b.count + 1, b.window⟩) ⟨b.count + 1, b.window⟩
        (RateState.lookup_set c phone _) fun t' ht' => hw t' (by simp [ht'])
      simp only [runRateCalls, ha]
      simp only [rateLimitMax] at *
      simp only [if_pos rfl, ite_true, if_true]
      omega

/-- C9: the rate limiter rejects the request when the bucket already holds
`rateLimitMax` admissions inside the window (leaving the bucket untouched),
restarts the bucket at count 1 on the first message or once the window has
elapsed, admits at most `rateLimitMax` messages per window from a fresh
state, and a rejected request makes the handler return the fixed throttle
reply with an empty trace — no model call and no tool call. -/
theorem claim_C9_rate_limiting :
    (∀ (counters : RateState) (now : Nat) (phone : String) (b : RateBucket),
      counters.lookup phone = some b → now - b.window ≤ rateLimitWindow →
      b.count ≥ rateLimitMax → allowRequest counters now phone = (false, counters)) ∧
    (∀ (counters : RateState) (now : Nat) (phone : String) (b : RateBucket),
      counters.lookup phone = some b → now - b.window > rateLimitWindow →
      allowRequest counters now phone = (true, counters.set phone ⟨1, now⟩)) ∧
    (∀ (counters : RateState) (now : Nat) (phone : String),
      counters.lookup phone = none →
      allowRequest counters now phone = (true, counters.set phone ⟨1, now⟩)) ∧
    (∀ (phone : String) (t0 : Nat) (ts : List Nat),
      (∀ t ∈ ts, t - t0 ≤ rateLimitWindow) →
      (runRateCalls [] phone (t0 :: ts)).1 ≤ rateLimitMax) ∧
    (∀ (env : AgentEnv) (counters : RateState) (now : Nat) (phone : String)
        (initSession : Except String String),
      (allowRequest counters now phone).1 = false →
      handle env counters now phone initSession =
        (.reply (textResponse throttleText), (allowRequest counters now phone).2, [])) := by
  refine ⟨?_, ?_, ?_, ?_, ?_⟩
  · intro c now phone b hb hw hc
    have hnr : ¬(now - b.window > rateLimitWindow) := by omega
    simp [allowRequest, hb, hnr, hc]
  · intro c now phone b hb hw
    simp [allowRequest, hb, hw]
  · intro c now phone hb
    simp [allowRequest, hb]
  · intro phone t0 ts hw
    have ha : allowRequest [] t0 phone = (true, RateState.set [] phone ⟨1, t0⟩) := by
      simp [allowRequest, RateState.lookup]
    have hrest := runRateCalls_le phone ts (RateState.set [] phone ⟨1, t0⟩) ⟨1, t0⟩
      (RateState.lookup_set [] phone _) (by simpa using hw)
    simp only [runRateCalls, ha]
    simp only [rateLimitMax] at *
    simp only [if_pos rfl, ite_true, if_true]
    omega
  · intro env c now phone initSession h
    simp [handle, h]

/-- Witness for C9: a full bucket rejects the 11th in-window message, and a
fresh phone admits at most ten calls. -/
theorem claim_C9_witness :
    allowRequest [("p", ⟨10, 0⟩)] 30 "p" = (false, [("p", ⟨10, 0⟩)]) ∧
      (runRateCalls [] "p" [0, 10, 20]).1 ≤ rateLimitMax := by
  have h := claim_C9_rate_limiting
  refine ⟨h.1 [("p", ⟨10, 0⟩)] 30 "p" ⟨10, 0⟩ (by decide) (by decide) (by decide), ?_⟩
  exact h.2.2.2.1 "p" 0 [10, 20] (by decide)

/-- Characterization of the store's token-budget pruning loop: it drops the
oldest turn exactly while more than two turns remain and the estimate
exceeds the budget. -/
theorem pruneStoreLoop_spec (ts : List ConversationTurn) :
    ∃ k, pruneStoreLoop ts = ts.drop k ∧
      (∀ j < k, (ts.drop j).length > 2 ∧ estimateTokens (ts.drop j) > maxHistoryTokens) ∧
      ¬((ts.drop k).length > 2 ∧ estimateTokens (ts.drop k) > maxHistoryTokens) := by
  induction ts with
  | nil => exact ⟨0, rfl, by omega, by simp⟩
  | cons t rest ih =>
    by_cases hc : (t :: rest).length > 2 ∧ estimateTokens (t :: rest) > maxHistoryTokens
    · obtain ⟨k, hk, hall, hend⟩ := ih
      have hstep : pruneStoreLoop (t :: rest) = pruneStoreLoop rest := by
        simp only [pruneStoreLoop]
        rw [if_pos (by simp only [Bool.and_eq_true, decide_eq_true_eq]; exact ⟨hc.1, hc.2⟩)]
      refine ⟨k + 1, ?_, ?_, ?_⟩
      · rw [hstep, hk]; rfl
      · intro j hj
        cases j with
        | zero => simpa using hc
        | succ j' => simpa using hall j' (by omega)
      · simpa using hend
    · refine ⟨0, ?_, by omega, by simpa using hc⟩
      simp only [pruneStoreLoop]
      rw [if_neg (by simpa using hc)]
      rfl

/-- Orphan repair only removes a suffix boundary: its result is a suffix. -/
theorem dropLeadingTool_suffix (ts : List ConversationTurn) : dropLeadingTool ts <:+ ts := by
  induction ts with
  | nil => simp [dropLeadingTool]
  | cons t rest ih =>
    by_cases h : t.role == "tool"
    · simp only [dropLeadingTool, h, if_pos]
      exact ih.trans (List.suffix_cons t rest)
    · simp [dropLeadingTool, h]

/-- After orphan repair, the oldest remaining turn is never a tool turn. -/
theorem dropLeadingTool_head (ts : List ConversationTurn) :
    ∀ t0 ∈ (dropLeadingTool ts).head?, t0.role ≠ "tool" := by
  induction ts with
  | nil => simp [dropLeadingTool]
  | cons t rest ih =>
    by_cases h : t.role == "tool"
    · simpa [dropLeadingTool, h] using ih
    · simp only [dropLeadingTool, h, Bool.false_eq_true, if_false]
      intro t0 ht0
      simp only [List.head?_cons, Option.mem_def, Option.some_inj] at ht0
      subst ht0
      simpa using h

/-- The hard cap keeps at most the configured number of turns. -/
theorem hardCapTurns_length (turns : List ConversationTurn) :
    (hardCapTurns turns).length ≤ maxConversationTurns := by
  unfold hardCapTurns
  split
  · simp [List.length_drop]
    omega
  · omega

/-- The hard cap drops oldest turns only: its result is a suffix. -/
theorem hardCapTurns_suffix (turns : List ConversationTurn) :
    hardCapTurns turns <:+ turns := by
  unfold hardCapTurns
  split
  · exact List.drop_suffix _ _
  · exact List.suffix_refl _

/-- Compression rewrites turns in place and keeps the count. -/
theorem compressOldTurns_length (turns : List ConversationTurn) :
    (compressOldTurns turns).length = turns.length := by
  simp [compressOldTurns]

/-- C2: after `SaveHistory`'s pure pipeline, at most 50 turns remain (the
cap and every pruning step drop oldest-first, witnessed by the suffix
facts), the oldest persisted turn never has role "tool", and the
token-budget loop drops the oldest remaining turn exactly while more than
two turns remain and the character-length-based estimate exceeds the
budget. -/
theorem claim_C2_save_history_invariants :
    ∀ turns : List ConversationTurn,
      (saveHistoryTurns turns).length ≤ maxConversationTurns ∧
      (∀ t0 ∈ (saveHistoryTurns turns).head?, t0.role ≠ "tool") ∧
      hardCapTurns turns <:+ turns ∧
      saveHistoryTurns turns <:+ compressOldTurns (hardCapTurns turns) ∧
      (∃ k,
        pruneStoreLoop (compressOldTurns (hardCapTurns turns)) =
          (compressOldTurns (hardCapTurns turns)).drop k ∧
        (∀ j < k,
          ((compressOldTurns (hardCapTurns turns)).drop j).length > 2 ∧
            estimateTokens ((compressOldTurns (hardCapTurns turns)).drop j) > maxHistoryTokens) ∧
        ¬((pruneStoreLoop (compressOldTurns (hardCapTurns turns))).length > 2 ∧
            estimateTokens (pruneStoreLoop (compressOldTurns (hardCapTurns turns))) > maxHistoryTokens)) := by
  intro turns
  obtain ⟨k, hk, hall, hend⟩ := pruneStoreLoop_spec (compressOldTurns (hardCapTurns turns))
  have hsuf : saveHistoryTurns turns <:+ compressOldTurns (hardCapTurns turns) := by
    unfold saveHistoryTurns
    exact (dropLeadingTool_suffix _).trans (hk ▸ List.drop_suffix _ _)
  refine ⟨?_, ?_, hardCapTurns_suffix turns, hsuf, k, hk, hall, by rw [hk]; exact hend⟩
  · calc (saveHistoryTurns turns).length
        ≤ (compressOldTurns (hardCapTurns turns)).length := hsuf.length_le
      _ = (hardCapTurns turns).length := compressOldTurns_length _
      _ ≤ maxConversationTurns := hardCapTurns_length turns
  · unfold saveHistoryTurns
    exact dropLeadingTool_head _

/-- Witness for C2 at a concrete history starting with an orphaned tool
turn. -/
theorem claim_C2_witness :
    (saveHistoryTurns wTurnsC2).length ≤ maxConversationTurns ∧
      (saveHistoryTurns wTurnsC2).head?.all (fun t => t.role != "tool") = true :=
  ⟨(claim_C2_save_history_invariants wTurnsC2).1, by decide⟩

/-- One step of the required-parameter loop: the head parameter passes and
the loop continues, or the whole validation fails. -/
theorem validateReq_cons (props : List (String × ParamSchema)) (args : RMap)
    (req : String) (rest : List String) :
    validateReq props args (req :: rest) = none ↔
      reqOkSpec props args req ∧ validateReq props args rest = none := by
  cases hv : args.lookup req with
  | none => simp [validateReq, hv, reqOkSpec]
  | some v =>
    cases hp : lookupProp props req with
    | none => cases v <;> simp [validateReq, reqOkSpec, hv, hp]
    | some prop =>
      by_cases hs : prop.type = "string"
      · cases v with
        | vStr s =>
          by_cases hemp : s = ""
          · simp [validateReq, reqOkSpec, typeOkSpec, hv, hp, hs, hemp]
          · by_cases henum : prop.enum = []
            · simp [validateReq, reqOkSpec, typeOkSpec, hv, hp, hs, hemp, henum]
            · by_cases hmem : s ∈ prop.enum
              · simp [validateReq, reqOkSpec, typeOkSpec, hv, hp, hs, hemp, henum, hmem,
                  List.length_pos, List.contains]
              · simp [validateReq, reqOkSpec, typeOkSpec, hv, hp, hs, hemp, henum, hmem,
                  List.length_pos, List.contains]
        | vNull => simp [validateReq, reqOkSpec, hv]
        | vBool b => simp [validateReq, reqOkSpec, typeOkSpec, hv, hp, hs]
        | vNum n => simp [validateReq, reqOkSpec, typeOkSpec, hv, hp, hs]
        | vArr xs => simp [validateReq, reqOkSpec, typeOkSpec, hv, hp, hs]
        | vRecList xs => simp [validateReq, reqOkSpec, typeOkSpec, hv, hp, hs]
        | vObj fs => simp [validateReq, reqOkSpec, typeOkSpec, hv, hp, hs]
      · by_cases hi : prop.type = "integer"
        · cases v <;> simp [validateReq, reqOkSpec, typeOkSpec, hv, hp, hs, hi]
        · by_cases hn : prop.type = "number"
          · cases v <;> simp [validateReq, reqOkSpec, typeOkSpec, hv, hp, hs, hi, hn]
          · cases v <;> simp [validateReq, reqOkSpec, typeOkSpec, hv, hp, hs, hi, hn]

/-- The validator accepts exactly the argument maps satisfying the
declarative requirement condition. -/
theorem validateArgs_none_iff (schema : ParamSchema) (args : RMap) :
    validateArgs schema args = none ↔ argsValidSpec schema args := by
  unfold validateArgs argsValidSpec
  generalize schema.required = reqs
  induction reqs with
  | nil => simp [validateReq]
  | cons req rest ih =>
    rw [validateReq_cons]
    simp [List.forall_mem_cons, ih]

/-- C6: for a registered tool with a parameter schema, a validation failure
makes the wrapper return the `*ToolError` of kind validation without
invoking the tool's `Execute`, a validation pass invokes `Execute`, and
validation succeeds exactly when every declared required parameter is
present, non-null, and correctly typed (non-empty string inside any declared
enum for string parameters, numeric for integer/number parameters). -/
theorem claim_C6_argument_validation :
    (∀ (reg : Registry) (name : String) (t : Tool) (schema : ParamSchema) (args : RMap) (k : Nat),
      reg.get name = some t → t.parameters = some schema →
      (∀ msg, validateArgs schema args = some msg →
        reg.executeTool k name args =
          (.errTool ⟨.validation, "argumentos inválidos para " ++ name ++ ": " ++ msg, "", false⟩,
            false)) ∧
      (validateArgs schema args = none → (reg.executeTool k name args).2 = true)) ∧
    (∀ (schema : ParamSchema) (args : RMap),
      validateArgs schema args = none ↔ argsValidSpec schema args) := by
  constructor
  · intro reg name t schema args k hget hparam
    constructor
    · intro msg hmsg
      simp [Registry.executeTool, hget, hparam, hmsg]
    · intro hnone
      simp only [Registry.executeTool, hget, hparam, hnone]
      unfold runExec
      cases t.execute k args <;> simp
  · exact validateArgs_none_iff

/-- Witness for C6: a missing required parameter short-circuits with the
validation error and no execution; supplying it runs the tool. -/
theorem claim_C6_witness :
    Registry.executeTool wRegC6 0 "search" [] =
      (.errTool ⟨.validation, "argumentos inválidos para search: parâmetro obrigatório ausente: q", "", false⟩,
        false) ∧
      (Registry.executeTool wRegC6 0 "search" [("q", .vStr "x")]).2 = true := by
  have h := claim_C6_argument_validation
  exact ⟨(h.1 wRegC6 "search" wQTool wSchema [] 0 rfl rfl).1
      "parâmetro obrigatório ausente: q" (by decide),
    (h.1 wRegC6 "search" wQTool wSchema [("q", .vStr "x")] 0 rfl rfl).2 (by decide)⟩

/-- Assigned key reads back the assigned value. -/
theorem RMap.lookup_set_self (m : RMap) (k : String) (v : GoVal) :
    (m.set k v).lookup k = some v := by
  induction m with
  | nil => simp [RMap.set, RMap.lookup]
  | cons hd tl ih =>
    obtain ⟨k', v'⟩ := hd
    by_cases h : k' = k <;> simp [RMap.set, RMap.lookup, h, ih]

/-- Assignment does not change other keys. -/
theorem RMap.lookup_set_ne (m : RMap) (k q : String) (v : GoVal) (hne : q ≠ k) :
    (m.set k v).lookup q = m.lookup q := by
  induction m with
  | nil => simp [RMap.set, RMap.lookup, Ne.symm hne]
  | cons hd tl ih =>
    obtain ⟨k', v'⟩ := hd
    by_cases h : k' = k
    · subst h
      simp [RMap.set, RMap.lookup, Ne.symm hne]
    · by_cases h2 : k' = q <;> simp [RMap.set, RMap.lookup, h, h2, hne, ih]

/-- A found large list field indeed exceeds the item cap. -/
theorem findBigList_some (m : RMap) (key : String) (items : List RMap)
    (h : findBigList m = some (key, items)) : items.length > maxListItems := by
  induction m with
  | nil => simp [findBigList] at h
  | cons hd tl ih =>
    obtain ⟨k, v⟩ := hd
    cases v
    case vRecList xs =>
      by_cases hlen : xs.toList.length > maxListItems
      · simp [findBigList, hlen] at h
        obtain ⟨hk, hi⟩ := h
        subst hi
        exact hlen
      · apply ih
        simpa [findBigList, hlen] using h
    all_goals (apply ih; simpa [findBigList] using h)

/-- Stripped items hold none of the verbose keys. -/
theorem stripVerboseItem_drops (item : RMap) :
    (stripVerboseItem item).lookup "descricao" = none ∧
      (stripVerboseItem item).lookup "conteudo" = none ∧
      (stripVerboseItem item).lookup "preview" = none := by
  induction item with
  | nil => simp [stripVerboseItem, RMap.lookup]
  | cons hd tl ih =>
    obtain ⟨k, v⟩ := hd
    by_cases h1 : k = "descricao"
    · simpa [stripVerboseItem, h1] using ih
    · by_cases h2 : k = "conteudo"
      · simpa [stripVerboseItem, h2] using ih
      · by_cases h3 : k = "preview"
        · simpa [stripVerboseItem, h3] using ih
        · simpa [stripVerboseItem, RMap.lookup, h1, h2, h3] using ih

/-- Shifting the accumulator of the byte-count fold. -/
theorem charsBytes_foldl_shift (l : List Char) : ∀ n : Nat,
    l.foldl (fun a c => a + c.utf8Size) n = n + charsBytes l := by
  induction l with
  | nil => intro n; simp [charsBytes]
  | cons c t ih =>
    intro n
    simp only [List.foldl, charsBytes]
    rw [ih, ih]
    omega

/-- Byte counting distributes over cons. -/
theorem charsBytes_cons (c : Char) (l : List Char) :
    charsBytes (c :: l) = c.utf8Size + charsBytes l := by
  simp only [charsBytes, List.foldl]
  rw [charsBytes_foldl_shift, charsBytes_foldl_shift]
  omega

/-- Byte counting distributes over append. -/
theorem charsBytes_append (l1 l2 : List Char) :
    charsBytes (l1 ++ l2) = charsBytes l1 + charsBytes l2 := by
  induction l1 with
  | nil => simp [charsBytes]
  | cons c t ih => simp only [List.cons_append, charsBytes_cons, ih]; omega

/-- Byte count of a replicated character. -/
theorem charsBytes_replicate (n : Nat) (c : Char) :
    charsBytes (List.replicate n c) = n * c.utf8Size := by
  induction n with
  | zero => simp [charsBytes]
  | succ m ih => simp only [List.replicate_succ, charsBytes_cons, ih]; ring

set_option maxRecDepth 4000

/-- C7 counterexample: a result whose single recognized list field holds 11
records that stay large after the verbose-field strip.  The first pass
truncates the list and returns immediately, so the output keeps the list
field, carries no `_summary` marker, and its serialization still exceeds
the 8 KB ceiling — this refutes the claim's clause that a result still
above the byte ceiling after list truncation is replaced by a truncation
marker plus a clipped summary. -/
theorem claim_C7_counterexample :
    (truncateOutput ceResult).hasKey "chamados" = true ∧
      (truncateOutput ceResult).hasKey "_summary" = false ∧
      serRMapBytes (truncateOutput ceResult) > maxOutputLen := by
  have hout : truncateOutput ceResult = ceOut := by rfl
  have hrep : charsBytes (List.replicate 900 'a') = 900 := by
    rw [charsBytes_replicate]; rfl
  have hdata : (String.mk (List.replicate 900 'a')).data = List.replicate 900 'a' := rfl
  refine ⟨by rw [hout]; decide, by rw [hout]; decide, ?_⟩
  rw [serRMapBytes, hout]
  simp only [ceOut, ceKept, bigItem, serRMap, RMap.toFields, serFields, GoVal.ser,
    serRecs, serStrLit, GoRecList.ofList, hdata, charsBytes_cons,
    charsBytes_append, hrep, maxOutputLen]
  decide

/-- C7 (amended): the wrapper truncates the first recognized
list-of-records field longer than the cap to exactly the cap, strips the
verbose sub-fields from the kept items, attaches the truncation metadata,
and returns immediately without a byte-size check; the ~8 KB ceiling check
(replacement by a truncation marker plus a clipped summary) applies only
when no list field was truncated. -/
theorem claim_C7_output_shaping_amended :
    (∀ (result : RMap) (key : String) (items : List RMap),
      findBigList result = some (key, items) →
      key ∉ (["_truncated", "_truncated_field", "_original_count", "_nota"] : List String) →
      (truncateOutput result).lookup key =
          some (.vRecList (GoRecList.ofList ((items.take maxListItems).map stripVerboseItem))) ∧
        (truncateOutput result).lookup "_truncated" = some (.vBool true) ∧
        (truncateOutput result).lookup "_truncated_field" = some (.vStr key) ∧
        (truncateOutput result).lookup "_original_count" = some (.vNum (Int.ofNat items.length)) ∧
        (truncateOutput result).lookup "_nota" =
          some (.vStr ("Mostrando " ++ toString maxListItems ++ " de " ++
            toString items.length ++ " resultados. Sugira ao usuário refinar a busca.")) ∧
        ((items.take maxListItems).map stripVerboseItem).length = maxListItems ∧
        (∀ item ∈ (items.take maxListItems).map stripVerboseItem,
          item.lookup "descricao" = none ∧ item.lookup "conteudo" = none ∧
            item.lookup "preview" = none)) ∧
    (∀ result : RMap, findBigList result = none → serRMapBytes result ≤ maxOutputLen →
      truncateOutput result = result) ∧
    (∀ result : RMap, findBigList result = none → serRMapBytes result > maxOutputLen →
      truncateOutput result =
        [("_truncated", .vBool true),
          ("_summary", .vStr (String.mk (clipBytes maxOutputLen (serRMap result))))]) := by
  refine ⟨?_, ?_, ?_⟩
  · intro result key items hfind hkey
    have hlen := findBigList_some result key items hfind
    have hne1 : key ≠ "_truncated" := fun h => hkey (by simp [h])
    have hne2 : key ≠ "_truncated_field" := fun h => hkey (by simp [h])
    have hne3 : key ≠ "_original_count" := fun h => hkey (by simp [h])
    have hne4 : key ≠ "_nota" := fun h => hkey (by simp [h])
    simp only [truncateOutput, hfind]
    refine ⟨?_, ?_, ?_, ?_, ?_, ?_, ?_⟩
    · rw [RMap.lookup_set_ne _ _ _ _ hne4, RMap.lookup_set_ne _ _ _ _ hne3,
        RMap.lookup_set_ne _ _ _ _ hne2, RMap.lookup_set_ne _ _ _ _ hne1,
        RMap.lookup_set_self]
    · rw [RMap.lookup_set_ne _ _ _ _ (by decide), RMap.lookup_set_ne _ _ _ _ (by decide),
        RMap.lookup_set_ne _ _ _ _ (by decide), RMap.lookup_set_self]
    · rw [RMap.lookup_set_ne _ _ _ _ (by decide), RMap.lookup_set_ne _ _ _ _ (by decide),
        RMap.lookup_set_self]
    · rw [RMap.lookup_set_ne _ _ _ _ (by decide), RMap.lookup_set_self]
    · rw [RMap.lookup_set_self]
    · rw [List.length_map, List.length_take]
      simp only [maxListItems] at hlen ⊢
      omega
    · intro item hmem
      obtain ⟨i, _, rfl⟩ := List.mem_map.mp hmem
      exact stripVerboseItem_drops i
  · intro result hfind hle
    simp only [serRMapBytes] at hle
    simp [truncateOutput, hfind, hle]
  · intro result hfind hgt
    simp only [serRMapBytes] at hgt
    simp [truncateOutput, hfind, Nat.not_le_of_lt hgt]

/-- Witness for the amended C7 behavior at a small concrete result. -/
theorem claim_C7_witness :
    (truncateOutput wSmallResult).lookup "_truncated" = some (.vBool true) ∧
      (truncateOutput wSmallResult).lookup "_original_count" = some (.vNum 11) := by
  have h := claim_C7_output_shaping_amended.1 wSmallResult "chamados"
    ((List.range 11).map wSmallItem) rfl (by decide)
  exact ⟨h.2.1, h.2.2.2.1⟩

/-- C1: whenever the doom-loop scan over one iteration's requested calls
crosses a threshold (an exact signature repeated more than 2 times
consecutively, or a tool name requested more than 4 times in the run), the
loop returns the doom-loop reply immediately after that model call: the
trace holds exactly one model call and a history save — no tool execution
of the offending batch and no further model calls.  The remaining conjuncts
pin the thresholds: the third consecutive identical request triggers (two
do not), the fifth same-name request triggers (four do not). -/
theorem claim_C1_doom_loop_guard :
    (∀ (env : AgentEnv) (st : LoopState) (n : Nat) (resp : ChatResponse)
        (choice : ChatChoice) (rest : List ChatChoice) (badTc : ToolCallReq),
      env.model st.callIdx = .ok resp →
      resp.choices = choice :: rest →
      choice.message.toolCalls ≠ [] →
      (∀ tc ∈ choice.message.toolCalls, tc.function.name ≠ "respond_interactive") →
      doomScan st.doom choice.message.toolCalls = .inr badTc →
      runLoop env (n + 1) st =
        (.reply (textResponse (doomMsgText badTc.function.name)),
          [.modelCall st.callIdx (preState env st).1,
            .saveHist ((preState env st).2 ++ [messageToTurn env.parseJson choice.message])])) ∧
    (∀ c : ToolCallReq, doomTriggered (doomScan ⟨"", 0, []⟩ [c, c, c]) = true) ∧
    (∀ c : ToolCallReq, doomTriggered (doomScan ⟨"", 0, []⟩ [c, c]) = false) ∧
    doomTriggered (doomScan ⟨"", 0, []⟩
      [⟨"1", "function", ⟨"t", "a"⟩⟩, ⟨"2", "function", ⟨"t", "b"⟩⟩,
        ⟨"3", "function", ⟨"t", "a"⟩⟩, ⟨"4", "function", ⟨"t", "b"⟩⟩,
        ⟨"5", "function", ⟨"t", "a"⟩⟩]) = true ∧
    doomTriggered (doomScan ⟨"", 0, []⟩
      [⟨"1", "function", ⟨"t", "a"⟩⟩, ⟨"2", "function", ⟨"t", "b"⟩⟩,
        ⟨"3", "function", ⟨"t", "a"⟩⟩, ⟨"4", "function", ⟨"t", "b"⟩⟩]) = false := by
  refine ⟨?_, ?_, ?_, by decide, by decide⟩
  · intro env st n resp choice rest badTc hmodel hchoices hne hni hdoom
    have hempty : choice.message.toolCalls.isEmpty = false := by
      cases h : choice.message.toolCalls with
      | nil => exact absurd h hne
      | cons a l => simp [h]
    have hfind : choice.message.toolCalls.find?
        (fun tc => tc.function.name == "respond_interactive") = none := by
      rw [List.find?_eq_none]
      intro tc htc
      simpa using hni tc htc
    have hiter : runIter env st =
        (.done (.reply (textResponse (doomMsgText badTc.function.name))),
          [.modelCall st.callIdx (preState env st).1,
            .saveHist ((preState env st).2 ++ [messageToTurn env.parseJson choice.message])]) := by
      unfold runIter
      rw [hmodel]
      simp only [hchoices, hempty, hfind, hdoom]
      simp
    simp [runLoop, hiter]
  · intro c
    cases h : (c.function.name ++ ":" ++ c.function.arguments) == "" <;>
      simp [doomScan, doomTriggered, bumpCount, lookupCount, h,
        doomLoopExactThreshold, doomLoopNameThreshold]
  · intro c
    cases h : (c.function.name ++ ":" ++ c.function.arguments) == "" <;>
      simp [doomScan, doomTriggered, bumpCount, lookupCount, h,
        doomLoopExactThreshold, doomLoopNameThreshold]

/-- Witness for C1: a run whose first model response repeats the same call
three times ends with the doom-loop reply after a single model call. -/
theorem claim_C1_witness :
    runLoop wEnvC1 maxToolIterations (initState wEnvC1) =
      (.reply (textResponse (doomMsgText "t")),
        [.modelCall 0 (preState wEnvC1 (initState wEnvC1)).1,
          .saveHist ((preState wEnvC1 (initState wEnvC1)).2 ++
            [messageToTurn wEnvC1.parseJson wDoomMsg])]) := by
  exact claim_C1_doom_loop_guard.1 wEnvC1 (initState wEnvC1) 4 ⟨[⟨wDoomMsg⟩]⟩ ⟨wDoomMsg⟩ []
    wCallT rfl rfl (by simp [wDoomMsg]) (by decide) rfl

/-- Every event a wrapper call (with retry) emits is the wrapper-invocation
event of that same tool call. -/
theorem execWithRetry_evs (reg : Registry) (k : Nat) (name rawArgs : String) (args : RMap) :
    ∀ ev ∈ (execWithRetry reg k name rawArgs args).2.2,
      ev = .toolWrapperCall name rawArgs := by
  unfold execWithRetry
  rcases reg.executeTool k name args with ⟨o1, b1⟩
  cases o1
  case ok r => simp
  all_goals
    dsimp only
    split
    · rcases reg.executeTool (k + 1) name args with ⟨o2, b2⟩
      cases o2 <;> simp_all
    · simp_all

/-- A sequential step emits only wrapper-invocation events for its own
call. -/
theorem seqStep_evs (reg : Registry) (parse : String → Option RMap) (k : Nat)
    (tc : ToolCallReq) :
    (∀ r nk evs, seqStep reg parse k tc = .appendRes r nk evs →
      ∀ ev ∈ evs, ev = .toolWrapperCall tc.function.name tc.function.arguments) ∧
    (∀ te nk evs, seqStep reg parse k tc = .abortAuth te nk evs →
      ∀ ev ∈ evs, ev = .toolWrapperCall tc.function.name tc.function.arguments) := by
  unfold seqStep
  cases hp : parse tc.function.arguments with
  | none =>
    refine ⟨?_, ?_⟩
    · intro r nk evs h
      simp only [SeqStep.appendRes.injEq] at h
      rcases h with ⟨-, -, rfl⟩
      simp
    · intro te nk evs h
      simp at h
  | some args =>
    have hevs := execWithRetry_evs reg k tc.function.name tc.function.arguments args
    rcases hr : execWithRetry reg k tc.function.name tc.function.arguments args with ⟨fc, nk', evs'⟩
    rw [hr] at hevs
    dsimp only at hevs
    simp only [hr]
    cases fc with
    | pass r =>
      refine ⟨?_, ?_⟩
      · intro a b c h
        simp only [SeqStep.appendRes.injEq] at h
        rcases h with ⟨-, -, rfl⟩
        exact hevs
      · intro a b c h
        simp at h
    | failed te =>
      dsimp only
      by_cases hau : (te.type == ErrorType.auth) = true
      · rw [if_pos hau]
        refine ⟨?_, ?_⟩
        · intro a b c h
          simp at h
        · intro a b c h
          simp only [SeqStep.abortAuth.injEq] at h
          rcases h with ⟨-, -, rfl⟩
          exact hevs
      · rw [if_neg hau]
        refine ⟨?_, ?_⟩
        · intro a b c h
          simp only [SeqStep.appendRes.injEq] at h
          rcases h with ⟨-, -, rfl⟩
          exact hevs
        · intro a b c h
          simp at h

/-- Dispatch never emits a history-clear event (sequential branch). -/
theorem seqDispatch_no_clear (reg : Registry) (parse : String → Option RMap) :
    ∀ (tcs : List ToolCallReq) (msgs : List ChatMessage) (turns : List ConversationTurn)
      (k : Nat), AgentEv.clearHist ∉ (seqDispatch reg parse tcs msgs turns k).2 := by
  intro tcs
  induction tcs with
  | nil => intro msgs turns k; simp [seqDispatch]
  | cons tc rest ih =>
    intro msgs turns k
    cases hs : seqStep reg parse k tc with
    | appendRes r nk evs =>
      simp only [seqDispatch, hs]
      intro hmem
      rcases List.mem_append.mp hmem with h | h
      · exact absurd ((seqStep_evs reg parse k tc).1 r nk evs hs _ h) (by simp)
      · exact ih _ _ _ h
    | abortAuth te nk evs =>
      simp only [seqDispatch, hs]
      intro hmem
      rcases List.mem_append.mp hmem with h | h
      · exact absurd ((seqStep_evs reg parse k tc).2 te nk evs hs _ h) (by simp)
      · simp at h

/-- A parallel batch member emits only wrapper-invocation events for its
own call. -/
theorem parResult_evs (reg : Registry) (parse : String → Option RMap) (k i : Nat)
    (tc : ToolCallReq) :
    ∀ ev ∈ (parResult reg parse k i tc).2,
      ev = .toolWrapperCall tc.function.name tc.function.arguments := by
  unfold parResult
  cases hp : parse tc.function.arguments with
  | none => simp
  | some args =>
    have hevs := execWithRetry_evs reg (k + 2 * i) tc.function.name tc.function.arguments args
    rcases hr : execWithRetry reg (k + 2 * i) tc.function.name tc.function.arguments args with
      ⟨fc, nk', evs'⟩
    rw [hr] at hevs
    dsimp only at hevs
    simp only [hr]
    cases fc <;> exact hevs

/-- Dispatch never emits a history-clear event (parallel branch). -/
theorem parDispatch_no_clear (reg : Registry) (parse : String → Option RMap)
    (tcs : List ToolCallReq) (msgs : List ChatMessage) (turns : List ConversationTurn)
    (k : Nat) : AgentEv.clearHist ∉ (parDispatch reg parse tcs msgs turns k).2 := by
  have hflat : AgentEv.clearHist ∉
      ((tcs.mapIdx fun i tc => (tc, parResult reg parse k i tc)).map fun p => p.2.2).flatten := by
    intro hmem
    rcases List.mem_flatten.mp hmem with ⟨l, hl, hcl⟩
    rcases List.mem_map.mp hl with ⟨p, hp, rfl⟩
    rw [List.mapIdx_eq_enum_map] at hp
    rcases List.mem_map.mp hp with ⟨q, hq, rfl⟩
    exact absurd (parResult_evs reg parse k q.1 q.2 _ hcl) (by simp)
  unfold parDispatch
  cases hf : (tcs.mapIdx fun i tc => (tc, parResult reg parse k i tc)).find? fun p =>
      isAuthResult p.2.1 with
  | none =>
    simp only [hf]
    exact hflat
  | some p =>
    simp only [hf]
    intro hmem
    rcases List.mem_append.mp hmem with h | h
    · exact hflat h
    · simp at h

/-- Dispatch never emits a history-clear event. -/
theorem dispatchTools_no_clear (reg : Registry) (parse : String → Option RMap)
    (tcs : List ToolCallReq) (msgs : List ChatMessage) (turns : List ConversationTurn)
    (k : Nat) : AgentEv.clearHist ∉ (dispatchTools reg parse tcs msgs turns k).2 := by
  unfold dispatchTools
  by_cases h : ((tcs.all fun tc => reg.isReadOnly tc.function.name) && decide (tcs.length > 1)) = true
  · simp only [h, if_pos]
    exact parDispatch_no_clear reg parse tcs msgs turns k
  · have hfalse : ((tcs.all fun tc => reg.isReadOnly tc.function.name) &&
        decide (tcs.length > 1)) = false := by simpa using h
    simp only [hfalse, Bool.false_eq_true, if_false]
    exact seqDispatch_no_clear reg parse tcs msgs turns k

/-- One loop iteration emits the history-clear event only when the model
call failed with an overflow/format error and all incremental pruning
attempts are already exhausted. -/
theorem runIter_clear_only_when_exhausted (env : AgentEnv) (st : LoopState) :
    AgentEv.clearHist ∈ (runIter env st).2 →
      st.pruneAttempt ≥ maxPruneAttempts ∧
        ∃ e, env.model st.callIdx = .error e ∧
          (isStatus400 e || isContextOverflow e) = true := by
  unfold runIter
  cases hmod : env.model st.callIdx with
  | error e =>
    by_cases hov : (isStatus400 e || isContextOverflow e) = true
    · by_cases hpa : st.pruneAttempt < maxPruneAttempts
      · simp [hov, hpa]
      · intro _
        exact ⟨by omega, e, rfl, hov⟩
    · have hov' : (isStatus400 e || isContextOverflow e) = false := by
        simpa using hov
      simp [hov']
  | ok resp =>
    cases hch : resp.choices with
    | nil => simp [hch]
    | cons choice rest =>
      by_cases hemp : choice.message.toolCalls.isEmpty = true
      · simp [hch, hemp]
      · have hemp' : choice.message.toolCalls.isEmpty = false := by
          simpa using hemp
        cases hf : choice.message.toolCalls.find?
            (fun tc => tc.function.name == "respond_interactive") with
        | some tc => simp [hch, hemp', hf]
        | none =>
          cases hd : doomScan st.doom choice.message.toolCalls with
          | inr badTc => simp [hch, hemp', hf, hd]
          | inl doom2 =>
            rcases hdisp : dispatchTools env.registry env.parseJson choice.message.toolCalls
                ((preState env st).1 ++ [choice.message])
                ((preState env st).2 ++ [messageToTurn env.parseJson choice.message])
                st.execIdx with ⟨dout, devs⟩
            have hnc : AgentEv.clearHist ∉ devs := by
              have := dispatchTools_no_clear env.registry env.parseJson
                choice.message.toolCalls
                ((preState env st).1 ++ [choice.message])
                ((preState env st).2 ++ [messageToTurn env.parseJson choice.message])
                st.execIdx
              rw [hdisp] at this
              exact this
            cases dout <;> simp [hch, hemp', hf, hd, hdisp, hnc]

/-- The incremental drop loop never grows the turn list. -/
theorem dropOldestLoop_length_le (n : Nat) :
    ∀ ts : List ConversationTurn, (dropOldestLoop n ts).length ≤ ts.length := by
  induction n with
  | zero => intro ts; simp [dropOldestLoop]
  | succ m ih =>
    intro ts
    simp only [dropOldestLoop]
    split
    · exact le_trans (ih ts.tail) (by cases ts <;> simp)
    · exact ih ts

/-- The incremental drop loop always keeps the newest turn. -/
theorem dropOldestLoop_ne_nil (n : Nat) :
    ∀ ts : List ConversationTurn, ts ≠ [] → dropOldestLoop n ts ≠ [] := by
  induction n with
  | zero => intro ts h; simpa [dropOldestLoop] using h
  | succ m ih =>
    intro ts h
    simp only [dropOldestLoop]
    split
    · apply ih
      cases ts with
      | nil => simp at h
      | cons a l =>
        intro htail
        rename_i hlen
        simp only [List.tail_cons] at htail
        rw [htail] at hlen
        simp at hlen
    · exact ih ts h

/-- C3: on a model-call failure recognized as overflow or generic 400 with
incremental attempts remaining, the loop retries with the oldest turns
dropped (twice as many per attempt for overflow as for a generic 400) and
the attempt counter bumped; dropping strictly shrinks the context whenever
prior turns exist and never discards the current message; once the attempt
cap is exhausted, the loop clears the stored history and retries with only
the system prompt and the current message; the clear event can occur only
in that exhausted state; unrecognized model errors surface as a failed
run. -/
theorem claim_C3_context_overflow_recovery :
    (∀ (env : AgentEnv) (st : LoopState) (e : String),
      env.model st.callIdx = .error e →
      (isStatus400 e || isContextOverflow e) = true →
      st.pruneAttempt < maxPruneAttempts →
      runIter env st =
        (.next
          { messages := sysMsg env :: toOpenAIMessages (dropOldestLoop
              (if isContextOverflow e then (st.pruneAttempt + 1) * 2 else st.pruneAttempt + 1)
              (preState env st).2),
            allTurns := dropOldestLoop
              (if isContextOverflow e then (st.pruneAttempt + 1) * 2 else st.pruneAttempt + 1)
              (preState env st).2,
            doom := st.doom, pruneAttempt := st.pruneAttempt + 1,
            callIdx := st.callIdx + 1, execIdx := st.execIdx },
          [.modelCall st.callIdx (preState env st).1])) ∧
    (∀ (n : Nat) (ts : List ConversationTurn), 0 < n → 1 < ts.length →
      (dropOldestLoop n ts).length < ts.length) ∧
    (∀ (n : Nat) (ts : List ConversationTurn), ts ≠ [] → dropOldestLoop n ts ≠ []) ∧
    (∀ (env : AgentEnv) (st : LoopState) (e : String),
      env.model st.callIdx = .error e →
      (isStatus400 e || isContextOverflow e) = true →
      ¬st.pruneAttempt < maxPruneAttempts →
      runIter env st =
        (.next
          { messages := [sysMsg env, userMsg env], allTurns := [userTurn env],
            doom := st.doom, pruneAttempt := st.pruneAttempt,
            callIdx := st.callIdx + 1, execIdx := st.execIdx },
          [.modelCall st.callIdx (preState env st).1, .clearHist])) ∧
    (∀ (env : AgentEnv) (st : LoopState),
      AgentEv.clearHist ∈ (runIter env st).2 →
        st.pruneAttempt ≥ maxPruneAttempts ∧
          ∃ e, env.model st.callIdx = .error e ∧
            (isStatus400 e || isContextOverflow e) = true) ∧
    (∀ (env : AgentEnv) (st : LoopState) (e : String),
      env.model st.callIdx = .error e →
      (isStatus400 e || isContextOverflow e) = false →
      runIter env st =
        (.done (.fail ("chatCompletion: " ++ e)),
          [.modelCall st.callIdx (preState env st).1])) := by
  refine ⟨?_, ?_, ?_, ?_, runIter_clear_only_when_exhausted, ?_⟩
  · intro env st e hmodel hov hpa
    unfold runIter
    rw [hmodel]
    have hcond : ((isStatus400 e || isContextOverflow e) &&
        decide (st.pruneAttempt < maxPruneAttempts)) = true := by
      simp [hov, hpa]
    simp [hcond]
  · intro n ts hn hlen
    cases n with
    | zero => omega
    | succ m =>
      simp only [dropOldestLoop]
      rw [if_pos hlen]
      calc (dropOldestLoop m ts.tail).length
          ≤ ts.tail.length := dropOldestLoop_length_le m ts.tail
        _ < ts.length := by cases ts with | nil => simp at hlen | cons a l => simp
  · intro n ts
    exact dropOldestLoop_ne_nil n ts
  · intro env st e hmodel hov hpa
    unfold runIter
    rw [hmodel]
    have hcond : ((isStatus400 e || isContextOverflow e) &&
        decide (st.pruneAttempt < maxPruneAttempts)) = false := by
      simp [hpa]
    simp [hcond, hov]
    omega
  · intro env st e hmodel hov
    unfold runIter
    rw [hmodel]
    simp [hov]

/-- Witness for C3 at a concrete overflow failure with two prior turns. -/
theorem claim_C3_witness :
    runIter wEnvC3 (initState wEnvC3) =
      (.next
        { messages := sysMsg wEnvC3 :: toOpenAIMessages (dropOldestLoop
            (if isContextOverflow "maximum context length" then (0 + 1) * 2 else 0 + 1)
            (preState wEnvC3 (initState wEnvC3)).2),
          allTurns := dropOldestLoop
            (if isContextOverflow "maximum context length" then (0 + 1) * 2 else 0 + 1)
            (preState wEnvC3 (initState wEnvC3)).2,
          doom := (initState wEnvC3).doom, pruneAttempt := 0 + 1,
          callIdx := 0 + 1, execIdx := 0 },
        [.modelCall 0 (preState wEnvC3 (initState wEnvC3)).1]) := by
  exact claim_C3_context_overflow_recovery.1 wEnvC3 (initState wEnvC3)
    "maximum context length" rfl (by decide) (by decide)

/-- A sequential step whose final wrapper failure is classified `Auth`
aborts instead of appending a structured result. -/
theorem seqStep_auth_abort (reg : Registry) (parse : String → Option RMap) (k : Nat)
    (tc : ToolCallReq) (te : ToolError) (nk : Nat) (evs : List AgentEv)
    (h : authFailureAt reg parse k tc te nk evs) :
    seqStep reg parse k tc = .abortAuth te nk evs := by
  obtain ⟨args, hp, hexec, hty⟩ := h
  unfold seqStep
  rw [hp]
  simp only [hexec]
  rw [if_pos (by simp [hty])]

/-- A sequential step aborts only with an `Auth`-classified failure. -/
theorem seqStep_abort_type (reg : Registry) (parse : String → Option RMap) (k : Nat)
    (tc : ToolCallReq) (te : ToolError) (nk : Nat) (evs : List AgentEv)
    (h : seqStep reg parse k tc = .abortAuth te nk evs) : te.type = .auth := by
  unfold seqStep at h
  cases hp : parse tc.function.arguments with
  | none => rw [hp] at h; simp at h
  | some args =>
    rw [hp] at h
    dsimp only at h
    rcases hr : execWithRetry reg k tc.function.name tc.function.arguments args with ⟨fc, nk', evs'⟩
    rw [hr] at h
    cases fc with
    | pass r => simp at h
    | failed te' =>
      dsimp only at h
      by_cases hau : (te'.type == ErrorType.auth) = true
      · rw [if_pos hau] at h
        simp only [SeqStep.abortAuth.injEq] at h
        rcases h with ⟨rfl, -, -⟩
        simpa using hau
      · rw [if_neg hau] at h
        simp at h

/-- Sequential dispatch soundness: an abort always carries the auth
marker of a classified auth failure. -/
theorem seqDispatch_abort_sound (reg : Registry) (parse : String → Option RMap) :
    ∀ (tcs : List ToolCallReq) (msgs : List ChatMessage) (turns : List ConversationTurn)
      (k : Nat) (err : String) (evs : List AgentEv),
      seqDispatch reg parse tcs msgs turns k = (.abort err, evs) →
      ∃ te : ToolError, te.type = .auth ∧ err = "auth_error: " ++ te.rawError := by
  intro tcs
  induction tcs with
  | nil => intro msgs turns k err evs h; simp [seqDispatch] at h
  | cons tc rest ih =>
    intro msgs turns k err evs h
    cases hs : seqStep reg parse k tc with
    | appendRes r nk evs0 =>
      simp only [seqDispatch, hs] at h
      rcases hrec : seqDispatch reg parse rest (appendToolResult msgs turns tc r).1
          (appendToolResult msgs turns tc r).2 nk with ⟨out, evs2⟩
      rw [hrec] at h
      cases out with
      | next m t nk2 => simp at h
      | abort err2 =>
        simp only [Prod.mk.injEq, DispatchOut.abort.injEq] at h
        rcases h with ⟨rfl, -⟩
        exact ih _ _ _ _ _ hrec
    | abortAuth te nk evs0 =>
      simp only [seqDispatch, hs, Prod.mk.injEq, DispatchOut.abort.injEq] at h
      rcases h with ⟨rfl, -⟩
      exact ⟨te, seqStep_abort_type reg parse k tc te nk evs0 hs, rfl⟩

/-- C4: an authentication-classified tool failure aborts the run and is
surfaced as an error (never as a normal reply and never as a tool-result
message the model could see).  Conjuncts: (1) a sequential call whose final
failure is classified `Auth` aborts its step; (2) at the head of a batch,
the whole dispatch returns the auth abort, the transcript saved is the one
from before the call (no structured result for it), and the only events
are the failing call's own wrapper invocations plus the save — later calls
never execute; (3) a successful step threads to the rest of the batch, so
(1)–(2) cover an abort at any position; (4) any sequential abort carries
an auth-classified failure's marker; (5) in the parallel branch a detected
auth result aborts with the pre-batch transcript saved and nothing
appended; (6) an auth-classified failure's structured result is exactly
what that detection matches; (7) a dispatch abort makes the iteration
return the error outcome; (8) `runLoop` propagates it as the run's error
return — no further model calls. -/
theorem claim_C4_auth_failure_abort :
    (∀ (reg : Registry) (parse : String → Option RMap) (k : Nat) (tc : ToolCallReq)
        (te : ToolError) (nk : Nat) (evs : List AgentEv),
      authFailureAt reg parse k tc te nk evs →
      seqStep reg parse k tc = .abortAuth te nk evs) ∧
    (∀ (reg : Registry) (parse : String → Option RMap) (tc : ToolCallReq)
        (rest : List ToolCallReq) (msgs : List ChatMessage)
        (turns : List ConversationTurn) (k : Nat) (te : ToolError) (nk : Nat)
        (evs : List AgentEv),
      authFailureAt reg parse k tc te nk evs →
      seqDispatch reg parse (tc :: rest) msgs turns k =
        (.abort ("auth_error: " ++ te.rawError), evs ++ [.saveHist turns]) ∧
        ∀ ev ∈ evs, ev = .toolWrapperCall tc.function.name tc.function.arguments) ∧
    (∀ (reg : Registry) (parse : String → Option RMap) (tc : ToolCallReq)
        (rest : List ToolCallReq) (msgs : List ChatMessage)
        (turns : List ConversationTurn) (k : Nat) (r : RMap) (nk : Nat)
        (evs : List AgentEv),
      seqStep reg parse k tc = .appendRes r nk evs →
      seqDispatch reg parse (tc :: rest) msgs turns k =
        ((seqDispatch reg parse rest (appendToolResult msgs turns tc r).1
            (appendToolResult msgs turns tc r).2 nk).1,
          evs ++ (seqDispatch reg parse rest (appendToolResult msgs turns tc r).1
            (appendToolResult msgs turns tc r).2 nk).2)) ∧
    (∀ (reg : Registry) (parse : String → Option RMap) (tcs : List ToolCallReq)
        (msgs : List ChatMessage) (turns : List ConversationTurn) (k : Nat)
        (err : String) (evs : List AgentEv),
      seqDispatch reg parse tcs msgs turns k = (.abort err, evs) →
      ∃ te : ToolError, te.type = .auth ∧ err = "auth_error: " ++ te.rawError) ∧
    (∀ (reg : Registry) (parse : String → Option RMap) (tcs : List ToolCallReq)
        (msgs : List ChatMessage) (turns : List ConversationTurn) (k : Nat)
        (p : ToolCallReq × RMap × List AgentEv),
      (tcs.mapIdx fun i tc => (tc, parResult reg parse k i tc)).find?
          (fun q => isAuthResult q.2.1) = some p →
      parDispatch reg parse tcs msgs turns k =
        (.abort (authAbortText p.2.1),
          ((tcs.mapIdx fun i tc => (tc, parResult reg parse k i tc)).map
            fun q => q.2.2).flatten ++ [.saveHist turns])) ∧
    (∀ te : ToolError, te.type = .auth → isAuthResult (toolErrorResult te) = true) ∧
    (∀ (env : AgentEnv) (st : LoopState) (resp : ChatResponse) (choice : ChatChoice)
        (rest : List ChatChoice) (doom2 : DoomState) (err : String) (devs : List AgentEv),
      env.model st.callIdx = .ok resp →
      resp.choices = choice :: rest →
      choice.message.toolCalls ≠ [] →
      (∀ tc ∈ choice.message.toolCalls, tc.function.name ≠ "respond_interactive") →
      doomScan st.doom choice.message.toolCalls = .inl doom2 →
      dispatchTools env.registry env.parseJson choice.message.toolCalls
        ((preState env st).1 ++ [choice.message])
        ((preState env st).2 ++ [messageToTurn env.parseJson choice.message]) st.execIdx =
        (.abort err, devs) →
      runIter env st =
        (.done (.fail err), AgentEv.modelCall st.callIdx (preState env st).1 :: devs)) ∧
    (∀ (env : AgentEnv) (n : Nat) (st : LoopState) (out : AgentOutcome)
        (evs : List AgentEv),
      runIter env st = (.done out, evs) → runLoop env (n + 1) st = (out, evs)) := by
  refine ⟨seqStep_auth_abort, ?_, ?_, seqDispatch_abort_sound, ?_, ?_, ?_, ?_⟩
  · intro reg parse tc rest msgs turns k te nk evs h
    have hs := seqStep_auth_abort reg parse k tc te nk evs h
    refine ⟨by simp [seqDispatch, hs], (seqStep_evs reg parse k tc).2 te nk evs hs⟩
  · intro reg parse tc rest msgs turns k r nk evs hs
    simp only [seqDispatch, hs]
  · intro reg parse tcs msgs turns k p h
    simp only [parDispatch, h]
  · intro te hty
    simp [toolErrorResult, isAuthResult, RMap.lookup, RMap.toFields, GoFields.toList,
      hty, ErrorType.str]
  · intro env st resp choice rest doom2 err devs hmodel hchoices hne hni hdoom hdisp
    have hempty : choice.message.toolCalls.isEmpty = false := by
      cases h : choice.message.toolCalls with
      | nil => exact absurd h hne
      | cons a l => simp [h]
    have hfind : choice.message.toolCalls.find?
        (fun tc => tc.function.name == "respond_interactive") = none := by
      rw [List.find?_eq_none]
      intro tc htc
      simpa using hni tc htc
    unfold runIter
    rw [hmodel]
    simp only [hchoices, hempty, hfind, hdoom, hdisp]
    simp
  · intro env n st out evs h
    simp [runLoop, h]

/-- Witness for C4: a tool failing with a 401 makes the sequential dispatch
abort with the auth marker, saving the pre-call transcript. -/
theorem claim_C4_witness :
    seqDispatch wRegC4 (fun _ => some []) [wCallX] [] [] 0 =
      (.abort ("auth_error: " ++ "401 unauthorized"),
        [AgentEv.toolWrapperCall "x" "\x7b\x7d"] ++ [.saveHist []]) := by
  exact (claim_C4_auth_failure_abort.2.1 wRegC4 (fun _ => some []) wCallX [] [] [] 0
    ⟨.auth, "Sua sessão expirou. Reconectando...", "401 unauthorized", false⟩ 1
    [AgentEv.toolWrapperCall "x" "\x7b\x7d"] ⟨[], rfl, rfl, rfl⟩).1

end Laia
